import Mathlib

/-!
Verification of the Matrox ConductIP Companion module (`src/api.ts`).

The module polls a video-routing device over HTTPS: `makeApiRequest`
performs one authenticated request and classifies the outcome,
`fetchRoomsAndPanels` refreshes the cached room/panel/salvo topology and
diffs it against the previous snapshot, and `fetchActiveSalvos` refreshes
the set of currently active salvos.  This file embeds those functions
shallowly: JSON documents are modelled by the inductive `Json`, the
network is modelled by passing each request's outcome (`HttpEvent`) or
each fetch's parsed result (`Json`) as an explicit parameter, and the
side effects on the host (status updates, log lines, rebuild
notifications) are collected in an explicit trace (`List Notif`).
-/

namespace ConductIP

/-- A JSON document as produced by `JSON.parse`: `null`, booleans, numbers
(the documents handled by this module only carry integral ids, so numbers
are modelled by `Int`), strings, arrays, and objects with ordered field
lists. -/
inductive Json where
  | null : Json
  | bool (b : Bool) : Json
  | num (n : Int) : Json
  | str (s : String) : Json
  | arr (elems : List Json) : Json
  | obj (fields : List (String × Json)) : Json
deriving Repr

mutual

/-- Structural equality of JSON documents. -/
def beqJson : Json → Json → Bool
  | .null, .null => true
  | .bool a, .bool b => a == b
  | .num a, .num b => a == b
  | .str a, .str b => a == b
  | .arr a, .arr b => beqList a b
  | .obj a, .obj b => beqFields a b
  | _, _ => false

/-- Structural equality of JSON array contents. -/
def beqList : List Json → List Json → Bool
  | [], [] => true
  | a :: as, b :: bs => beqJson a b && beqList as bs
  | _, _ => false

/-- Structural equality of JSON object field lists. -/
def beqFields : List (String × Json) → List (String × Json) → Bool
  | [], [] => true
  | (k1, v1) :: as, (k2, v2) :: bs => k1 == k2 && beqJson v1 v2 && beqFields as bs
  | _, _ => false

end

/-- Induction over `Json` exposing the elements of nested arrays and
objects. -/
theorem Json.inductionOn (P : Json → Prop)
    (hnull : P .null) (hbool : ∀ b, P (.bool b)) (hnum : ∀ n, P (.num n))
    (hstr : ∀ s, P (.str s))
    (harr : ∀ xs, (∀ x ∈ xs, P x) → P (.arr xs))
    (hobj : ∀ fs, (∀ kv ∈ fs, P kv.2) → P (.obj fs)) : ∀ j, P j := by
  have key : ∀ (n : Nat) (j : Json), sizeOf j ≤ n → P j := by
    intro n
    induction n with
    | zero =>
      intro j h
      cases j <;> simp_arith at h
    | succ n ih =>
      intro j h
      cases j with
      | null => exact hnull
      | bool b => exact hbool b
      | num m => exact hnum m
      | str s => exact hstr s
      | arr xs =>
        refine harr xs (fun x hx => ih x ?_)
        have hlt := List.sizeOf_lt_of_mem hx
        simp only [Json.arr.sizeOf_spec] at h
        omega
      | obj fs =>
        refine hobj fs (fun kv hkv => ih kv.2 ?_)
        have hlt := List.sizeOf_lt_of_mem hkv
        have hkv2 : sizeOf kv.2 < sizeOf kv := by
          obtain ⟨k, v⟩ := kv
          simp_arith
        simp only [Json.obj.sizeOf_spec] at h
        omega
  exact fun j => key (sizeOf j) j (Nat.le_refl _)

/-- `beqJson` decides equality of JSON documents. -/
theorem beqJson_iff : ∀ a b : Json, beqJson a b = true ↔ a = b := by
  intro a
  induction a using Json.inductionOn with
  | hnull => intro b; cases b <;> simp [beqJson]
  | hbool x => intro b; cases b <;> simp [beqJson]
  | hnum x => intro b; cases b <;> simp [beqJson]
  | hstr x => intro b; cases b <;> simp [beqJson]
  | harr xs ih =>
    intro b
    cases b with
    | arr ys =>
      simp only [beqJson, Json.arr.injEq]
      induction xs generalizing ys with
      | nil => cases ys <;> simp [beqList]
      | cons x xs ihl =>
        cases ys with
        | nil => simp [beqList]
        | cons y ys =>
          have hx := ih x (List.mem_cons_self x xs)
          have hrest := ihl (fun z hz => ih z (List.mem_cons_of_mem x hz)) ys
          simp [beqList, hx, hrest]
    | null => simp [beqJson]
    | bool y => simp [beqJson]
    | num y => simp [beqJson]
    | str y => simp [beqJson]
    | obj fs => simp [beqJson]
  | hobj fs ih =>
    intro b
    cases b with
    | obj gs =>
      simp only [beqJson, Json.obj.injEq]
      induction fs generalizing gs with
      | nil => cases gs <;> simp [beqFields]
      | cons f fs ihl =>
        cases gs with
        | nil => obtain ⟨k, v⟩ := f; simp [beqFields]
        | cons g gs =>
          obtain ⟨k1, v1⟩ := f
          obtain ⟨k2, v2⟩ := g
          have hv := ih (k1, v1) (List.mem_cons_self _ fs)
          have hrest := ihl (fun z hz => ih z (List.mem_cons_of_mem _ hz)) gs
          simp only [beqFields, Bool.and_eq_true, beq_iff_eq, hrest, List.cons.injEq,
            Prod.mk.injEq]
          constructor
          · rintro ⟨⟨hk, hvv⟩, htl⟩
            exact ⟨⟨hk, (hv v2).mp hvv⟩, htl⟩
          · rintro ⟨⟨hk, hvv⟩, htl⟩
            exact ⟨⟨hk, (hv v2).mpr hvv⟩, htl⟩
    | null => simp [beqJson]
    | bool y => simp [beqJson]
    | num y => simp [beqJson]
    | str y => simp [beqJson]
    | arr ys => simp [beqJson]

instance : DecidableEq Json :=
  fun a b => decidable_of_iff (beqJson a b = true) (beqJson_iff a b)

/-- One character of `JSON.stringify` string-escaping: quotes and
backslashes are escaped.  (`JSON.stringify` additionally escapes control
characters; that does not affect equality of serializations, which is the
only use this module makes of `JSON.stringify`.) -/
def escChar (c : Char) : List Char :=
  if c = '"' ∨ c = '\\' then ['\\', c] else [c]

/-- `JSON.stringify` escaping of a whole string body. -/
def escapeChars (s : List Char) : List Char :=
  (s.map escChar).flatten

/-- A quoted, escaped JSON string literal. -/
def quoteStr (s : String) : List Char :=
  '"' :: (escapeChars s.data ++ ['"'])

/-- The decimal digit character for `d < 10`. -/
def digitChar (d : Nat) : Char := Char.ofNat (48 + d)

/-- Decimal representation of a natural number (the JSON number format for
naturals). -/
def natChars (n : Nat) : List Char :=
  if _h : n < 10 then [digitChar n]
  else natChars (n / 10) ++ [digitChar (n % 10)]
decreasing_by exact Nat.div_lt_self (by omega) (by omega)

/-- Decimal representation of an integer (the JSON number format). -/
def intChars : Int → List Char
  | .ofNat n => natChars n
  | .negSucc m => '-' :: natChars (m + 1)

/-- The characters of the keyword `null`. -/
def nullChars : List Char := ['n', 'u', 'l', 'l']

/-- The characters of the keyword `true`. -/
def trueChars : List Char := ['t', 'r', 'u', 'e']

/-- The characters of the keyword `false`. -/
def falseChars : List Char := ['f', 'a', 'l', 's', 'e']

mutual

/-- `JSON.stringify` of a JSON document, as a character list. -/
def stringifyChars : Json → List Char
  | .null => nullChars
  | .bool true => trueChars
  | .bool false => falseChars
  | .num n => intChars n
  | .str s => quoteStr s
  | .arr xs => '[' :: (stringifyList xs ++ [']'])
  | .obj fs => Char.ofNat 123 :: (stringifyFields fs ++ [Char.ofNat 125])

/-- Comma-separated serialization of array elements. -/
def stringifyList : List Json → List Char
  | [] => []
  | [x] => stringifyChars x
  | x :: y :: xs => stringifyChars x ++ ',' :: stringifyList (y :: xs)

/-- Comma-separated serialization of object fields. -/
def stringifyFields : List (String × Json) → List Char
  | [] => []
  | [(k, v)] => quoteStr k ++ ':' :: stringifyChars v
  | (k, v) :: f :: fs => quoteStr k ++ ':' :: stringifyChars v ++ ',' :: stringifyFields (f :: fs)

end

/-- `JSON.stringify` of a JSON document, as a string. -/
def jsonStringify (j : Json) : String := String.mk (stringifyChars j)

/-! ### A reference parser for the serialization

The parser below is used only to prove that `stringifyChars` is
injective, i.e. that comparing `JSON.stringify` outputs is the same as
structural equality of documents.  It parses exactly the strings that
`stringifyChars` emits. -/

/-- Parse a JSON string body after the opening quote, undoing
`escapeChars`. -/
def parseStrChars : List Char → Option (List Char × List Char)
  | [] => none
  | c :: rest =>
    if c = '\\' then
      match rest with
      | [] => none
      | c2 :: rest2 => (parseStrChars rest2).map (fun p => (c2 :: p.1, p.2))
    else if c = '"' then some ([], rest)
    else (parseStrChars rest).map (fun p => (c :: p.1, p.2))

/-- Is `c` a decimal digit? -/
def isDigitChar (c : Char) : Bool := decide ('0' ≤ c ∧ c ≤ '9')

/-- Split a leading run of decimal digits off a character list. -/
def takeDigits : List Char → List Char × List Char
  | [] => ([], [])
  | c :: rest =>
    if isDigitChar c then
      let p := takeDigits rest
      (c :: p.1, p.2)
    else ([], c :: rest)

/-- The numeric value of a digit run. -/
def digitsToNat (ds : List Char) : Nat :=
  ds.foldl (fun acc c => 10 * acc + (c.toNat - 48)) 0

/-- Parse a (possibly negated) decimal number. -/
def parseNum (input : List Char) : Option (Json × List Char) :=
  let body := if input.head? = some '-' then input.tail else input
  match takeDigits body with
  | ([], _) => none
  | (ds, r) =>
    some (.num (if input.head? = some '-' then -(digitsToNat ds : Int)
                else (digitsToNat ds : Int)), r)

mutual

/-- Parse one JSON document off the front of a character list; `fuel`
bounds the nesting depth. -/
def parseJ : Nat → List Char → Option (Json × List Char)
  | 0, _ => none
  | _ + 1, [] => none
  | fuel + 1, c :: rest =>
    if c = 'n' then
      match rest with
      | 'u' :: 'l' :: 'l' :: r => some (.null, r)
      | _ => none
    else if c = 't' then
      match rest with
      | 'r' :: 'u' :: 'e' :: r => some (.bool true, r)
      | _ => none
    else if c = 'f' then
      match rest with
      | 'a' :: 'l' :: 's' :: 'e' :: r => some (.bool false, r)
      | _ => none
    else if c = '"' then
      (parseStrChars rest).map (fun p => (.str (String.mk p.1), p.2))
    else if c = '[' then
      match rest with
      | [] => none
      | r0 :: r =>
        if r0 = ']' then some (.arr [], r)
        else (parseElems fuel (r0 :: r)).map (fun p => (.arr p.1, p.2))
    else if c = Char.ofNat 123 then
      match rest with
      | r0 :: r =>
        if r0 = Char.ofNat 125 then some (.obj [], r)
        else (parseFields fuel (r0 :: r)).map (fun p => (.obj p.1, p.2))
      | [] => none
    else if c = '-' ∨ isDigitChar c then parseNum (c :: rest)
    else none

/-- Parse the elements of a non-empty JSON array up to the closing
bracket. -/
def parseElems : Nat → List Char → Option (List Json × List Char)
  | 0, _ => none
  | fuel + 1, input =>
    match parseJ fuel input with
    | none => none
    | some (j, r) =>
      match r with
      | ']' :: r2 => some ([j], r2)
      | ',' :: r2 => (parseElems fuel r2).map (fun p => (j :: p.1, p.2))
      | _ => none

/-- Parse the fields of a non-empty JSON object up to the closing
brace. -/
def parseFields : Nat → List Char → Option (List (String × Json) × List Char)
  | 0, _ => none
  | fuel + 1, input =>
    match input with
    | '"' :: rest =>
      match parseStrChars rest with
      | none => none
      | some (k, r) =>
        match r with
        | ':' :: r2 =>
          match parseJ fuel r2 with
          | none => none
          | some (v, r3) =>
            match r3 with
            | r0 :: r4 =>
              if r0 = Char.ofNat 125 then some ([(String.mk k, v)], r4)
              else if r0 = ',' then
                (parseFields fuel r4).map (fun p => ((String.mk k, v) :: p.1, p.2))
              else none
            | [] => none
        | _ => none
    | _ => none

end

/-- Does the character list not start with a digit?  (JSON number parsing
is maximal-munch, so a serialized number must not be followed directly by
a digit.) -/
def noLeadDigit : List Char → Bool
  | [] => true
  | c :: _ => !isDigitChar c

/-! ### Round-trip lemmas -/

theorem string_mk_data (s : String) : String.mk s.data = s := rfl

theorem parseStrChars_escape (s : List Char) :
    ∀ rest, parseStrChars (escapeChars s ++ '"' :: rest) = some (s, rest) := by
  induction s with
  | nil =>
    intro rest
    show parseStrChars ('"' :: rest) = some ([], rest)
    rw [parseStrChars.eq_def]
    simp [escapeChars]
  | cons c cs ih =>
    intro rest
    by_cases hc : c = '"' ∨ c = '\\'
    · have he : escapeChars (c :: cs) = '\\' :: c :: escapeChars cs := by
        simp [escapeChars, escChar, hc]
      rw [show escapeChars (c :: cs) ++ '"' :: rest =
            '\\' :: c :: (escapeChars cs ++ '"' :: rest) by rw [he]; simp]
      rw [parseStrChars.eq_def]
      simp [ih rest]
    · have he : escapeChars (c :: cs) = c :: escapeChars cs := by
        simp [escapeChars, escChar, hc]
      push_neg at hc
      obtain ⟨h1, h2⟩ := hc
      rw [show escapeChars (c :: cs) ++ '"' :: rest = c :: (escapeChars cs ++ '"' :: rest) by
        rw [he]; simp]
      rw [parseStrChars.eq_def]
      simp [h1, h2, ih rest]

theorem digitChar_isDigit (d : Nat) (h : d < 10) : isDigitChar (digitChar d) = true := by
  interval_cases d <;> decide

theorem digitChar_val (d : Nat) (h : d < 10) : (digitChar d).toNat - 48 = d := by
  interval_cases d <;> decide

theorem natChars_all (n : Nat) : (natChars n).all isDigitChar = true := by
  induction n using Nat.strong_induction_on with
  | _ n ih =>
    rw [natChars.eq_def]
    split
    · rename_i h
      simp [digitChar_isDigit n h]
    · rename_i h
      have hdiv : n / 10 < n := Nat.div_lt_self (by omega) (by omega)
      simp [List.all_append, ih (n / 10) hdiv,
        digitChar_isDigit (n % 10) (Nat.mod_lt n (by omega))]

theorem natChars_cons (n : Nat) :
    ∃ d ds, natChars n = d :: ds ∧ isDigitChar d = true := by
  induction n using Nat.strong_induction_on with
  | _ n ih =>
    rw [natChars.eq_def]
    split
    · rename_i h
      exact ⟨digitChar n, [], rfl, digitChar_isDigit n h⟩
    · rename_i h
      have hdiv : n / 10 < n := Nat.div_lt_self (by omega) (by omega)
      obtain ⟨d, ds, hds, hdig⟩ := ih (n / 10) hdiv
      exact ⟨d, ds ++ [digitChar (n % 10)], by rw [hds]; simp, hdig⟩

theorem digitsToNat_natChars (n : Nat) : digitsToNat (natChars n) = n := by
  induction n using Nat.strong_induction_on with
  | _ n ih =>
    rw [natChars.eq_def]
    split
    · rename_i h
      simp [digitsToNat, digitChar_val n h]
    · rename_i h
      have hdiv : n / 10 < n := Nat.div_lt_self (by omega) (by omega)
      have : digitsToNat (natChars (n / 10) ++ [digitChar (n % 10)]) =
          10 * digitsToNat (natChars (n / 10)) + ((digitChar (n % 10)).toNat - 48) := by
        simp [digitsToNat, List.foldl_append]
      rw [this, ih (n / 10) hdiv, digitChar_val (n % 10) (Nat.mod_lt n (by omega))]
      omega

theorem takeDigits_append (ds : List Char) (rest : List Char)
    (hds : ds.all isDigitChar = true) (hrest : noLeadDigit rest = true) :
    takeDigits (ds ++ rest) = (ds, rest) := by
  induction ds with
  | nil =>
    simp only [List.nil_append]
    cases rest with
    | nil => rfl
    | cons c r =>
      simp only [noLeadDigit, Bool.not_eq_true'] at hrest
      rw [takeDigits.eq_def]
      simp [hrest]
  | cons d ds ih =>
    simp only [List.all_cons, Bool.and_eq_true] at hds
    rw [List.cons_append, takeDigits.eq_def]
    simp [hds.1, ih hds.2]

theorem parseNum_intChars (n : Int) (rest : List Char)
    (hrest : noLeadDigit rest = true) :
    parseNum (intChars n ++ rest) = some (.num n, rest) := by
  cases n with
  | ofNat m =>
    obtain ⟨d, ds, hds, hdig⟩ := natChars_cons m
    have hdm : d ≠ '-' := by
      intro hd
      rw [hd] at hdig
      exact absurd hdig (by decide)
    have htake : takeDigits (natChars m ++ rest) = (natChars m, rest) :=
      takeDigits_append _ _ (natChars_all m) hrest
    have hval : digitsToNat (d :: ds) = m := by
      rw [← hds]
      exact digitsToNat_natChars m
    have hcons : natChars m ++ rest = d :: (ds ++ rest) := by rw [hds]; simp
    have htake2 : takeDigits (d :: (ds ++ rest)) = (d :: ds, rest) := by
      rw [← hcons, ← hds]
      exact htake
    rw [show intChars (Int.ofNat m) ++ rest = d :: (ds ++ rest) by rw [← hcons]; rfl]
    rw [parseNum]
    simp [htake2, hdm, hval, Int.ofNat_eq_coe]
  | negSucc m =>
    have htake : takeDigits (natChars (m + 1) ++ rest) = (natChars (m + 1), rest) :=
      takeDigits_append _ _ (natChars_all (m + 1)) hrest
    obtain ⟨d, ds, hds, hdig⟩ := natChars_cons (m + 1)
    have hval : digitsToNat (d :: ds) = m + 1 := by
      rw [← hds]
      exact digitsToNat_natChars (m + 1)
    have hcons : natChars (m + 1) ++ rest = d :: (ds ++ rest) := by rw [hds]; simp
    have htake2 : takeDigits (d :: (ds ++ rest)) = (d :: ds, rest) := by
      rw [← hcons, ← hds]
      exact htake
    rw [show intChars (Int.negSucc m) ++ rest = '-' :: (d :: (ds ++ rest)) by
      rw [← hcons]; simp [intChars]]
    rw [parseNum]
    simp [htake2, hval, Int.negSucc_eq]

theorem digit_ne (c : Char) (h : isDigitChar c = true) :
    c ≠ 'n' ∧ c ≠ 't' ∧ c ≠ 'f' ∧ c ≠ '"' ∧ c ≠ '[' ∧ c ≠ Char.ofNat 123 ∧
      c ≠ ']' ∧ c ≠ '-' := by
  refine ⟨?_, ?_, ?_, ?_, ?_, ?_, ?_, ?_⟩ <;> (rintro rfl; revert h; decide)

theorem one_le_sizeOf_json (j : Json) : 1 ≤ sizeOf j := by
  cases j <;> simp_arith

theorem one_le_sizeOf_list {α : Type} [SizeOf α] (l : List α) : 1 ≤ sizeOf l := by
  cases l <;> simp_arith

/-- Every serialized document starts with a character other than `]`. -/
theorem stringify_cons (j : Json) :
    ∃ c cs, stringifyChars j = c :: cs ∧ c ≠ ']' := by
  cases j with
  | null => exact ⟨'n', ['u', 'l', 'l'], by simp [stringifyChars, nullChars], by decide⟩
  | bool b =>
    cases b with
    | false =>
      exact ⟨'f', ['a', 'l', 's', 'e'], by simp [stringifyChars, falseChars], by decide⟩
    | true => exact ⟨'t', ['r', 'u', 'e'], by simp [stringifyChars, trueChars], by decide⟩
  | num n =>
    cases n with
    | ofNat m =>
      obtain ⟨d, ds, hds, hdig⟩ := natChars_cons m
      exact ⟨d, ds, by simp [stringifyChars, intChars, hds], (digit_ne d hdig).2.2.2.2.2.2.1⟩
    | negSucc m =>
      exact ⟨'-', natChars (m + 1), by simp [stringifyChars, intChars], by decide⟩
  | str s =>
    exact ⟨'"', escapeChars s.data ++ ['"'], by simp [stringifyChars, quoteStr], by decide⟩
  | arr xs =>
    exact ⟨'[', stringifyList xs ++ [']'], by simp [stringifyChars], by decide⟩
  | obj fs =>
    exact ⟨Char.ofNat 123, stringifyFields fs ++ [Char.ofNat 125],
      by simp [stringifyChars], by decide⟩

/-- `parseJ` on a serialized number. -/
theorem parseJ_intChars (fuel : Nat) (n : Int) (rest : List Char)
    (hrest : noLeadDigit rest = true) :
    parseJ (fuel + 1) (intChars n ++ rest) = some (.num n, rest) := by
  cases n with
  | ofNat m =>
    obtain ⟨d, ds, hds, hdig⟩ := natChars_cons m
    obtain ⟨h1, h2, h3, h4, h5, h6, h7, h8⟩ := digit_ne d hdig
    have hcons : intChars (Int.ofNat m) ++ rest = d :: (ds ++ rest) := by
      simp [intChars, hds]
    rw [hcons, parseJ.eq_def]
    simp only [h1, h2, h3, h4, h5, h6, h8, hdig, if_false, if_neg, ite_false,
      reduceIte, or_true, if_true, ite_true]
    rw [show d :: (ds ++ rest) = intChars (Int.ofNat m) ++ rest from hcons.symm]
    exact parseNum_intChars _ _ hrest
  | negSucc m =>
    have hcons : intChars (Int.negSucc m) ++ rest = '-' :: (natChars (m + 1) ++ rest) := by
      simp [intChars]
    rw [hcons, parseJ.eq_def]
    simp only [reduceIte, true_or, if_true, ite_true, if_neg, Char.reduceEq,
      if_false, ite_false]
    rw [show ('-') :: (natChars (m + 1) ++ rest) = intChars (Int.negSucc m) ++ rest from
      hcons.symm]
    exact parseNum_intChars _ _ hrest

theorem noLeadDigit_of (c : Char) (rest : List Char) (h : isDigitChar c = false) :
    noLeadDigit (c :: rest) = true := by
  simp [noLeadDigit, h]

theorem stringifyFields_cons_head (f : String × Json) (fs : List (String × Json)) :
    ∃ t, stringifyFields (f :: fs) = '"' :: t := by
  obtain ⟨k, v⟩ := f
  cases fs with
  | nil =>
    exact ⟨(escapeChars k.data ++ ['"']) ++ ':' :: stringifyChars v,
      by simp [stringifyFields, quoteStr]⟩
  | cons g gs =>
    exact ⟨(escapeChars k.data ++ ['"']) ++
        ':' :: (stringifyChars v ++ ',' :: stringifyFields (g :: gs)),
      by simp [stringifyFields, quoteStr]⟩

/-- The serializer round-trips through the reference parser: given enough
fuel, parsing the serialization of a document (followed by any non-digit
continuation) yields the document back. -/
theorem parse_stringify (fuel : Nat) :
    (∀ j rest, sizeOf j ≤ fuel → noLeadDigit rest = true →
      parseJ fuel (stringifyChars j ++ rest) = some (j, rest)) ∧
    (∀ xs rest, xs ≠ ([] : List Json) → sizeOf xs ≤ fuel →
      parseElems fuel (stringifyList xs ++ ']' :: rest) = some (xs, rest)) ∧
    (∀ fs rest, fs ≠ ([] : List (String × Json)) → sizeOf fs ≤ fuel →
      parseFields fuel (stringifyFields fs ++ Char.ofNat 125 :: rest) = some (fs, rest)) := by
  induction fuel with
  | zero =>
    refine ⟨fun j rest hsz _ => ?_, fun xs rest hne hsz => ?_, fun fs rest hne hsz => ?_⟩
    · exact absurd hsz (by have := one_le_sizeOf_json j; omega)
    · exact absurd hsz (by have := one_le_sizeOf_list xs; omega)
    · exact absurd hsz (by have := one_le_sizeOf_list fs; omega)
  | succ fuel ih =>
    obtain ⟨ihJ, ihE, ihF⟩ := ih
    refine ⟨?_, ?_, ?_⟩
    · intro j rest hsz hrest
      cases j with
      | null =>
        rw [show stringifyChars .null ++ rest = 'n' :: 'u' :: 'l' :: 'l' :: rest by
          simp [stringifyChars, nullChars]]
        rw [parseJ.eq_def]
        simp
      | bool b =>
        cases b with
        | true =>
          rw [show stringifyChars (.bool true) ++ rest = 't' :: 'r' :: 'u' :: 'e' :: rest by
            simp [stringifyChars, trueChars]]
          rw [parseJ.eq_def]
          simp
        | false =>
          rw [show stringifyChars (.bool false) ++ rest =
              'f' :: 'a' :: 'l' :: 's' :: 'e' :: rest by simp [stringifyChars, falseChars]]
          rw [parseJ.eq_def]
          simp
      | num n =>
        rw [show stringifyChars (.num n) ++ rest = intChars n ++ rest by
          simp [stringifyChars]]
        exact parseJ_intChars fuel n rest hrest
      | str s =>
        rw [show stringifyChars (.str s) ++ rest =
            '"' :: (escapeChars s.data ++ '"' :: rest) by simp [stringifyChars, quoteStr]]
        rw [parseJ.eq_def]
        simp [parseStrChars_escape s.data rest, string_mk_data]
      | arr xs =>
        cases xs with
        | nil =>
          rw [show stringifyChars (.arr []) ++ rest = '[' :: ']' :: rest by
            simp [stringifyChars, stringifyList]]
          rw [parseJ.eq_def]
          simp
        | cons x xs =>
          obtain ⟨c, cs, hcs, hc⟩ := stringify_cons x
          have ht : ∃ t, stringifyList (x :: xs) ++ ']' :: rest = c :: t := by
            cases xs with
            | nil => exact ⟨cs ++ ']' :: rest, by simp [stringifyList, hcs]⟩
            | cons y ys =>
              exact ⟨(cs ++ ',' :: stringifyList (y :: ys)) ++ ']' :: rest,
                by simp [stringifyList, hcs]⟩
          obtain ⟨t, ht⟩ := ht
          have hin : stringifyChars (.arr (x :: xs)) ++ rest = '[' :: c :: t := by
            rw [show stringifyChars (.arr (x :: xs)) =
              '[' :: (stringifyList (x :: xs) ++ [']']) by simp [stringifyChars]]
            rw [List.cons_append, List.append_assoc, List.singleton_append, ht]
          rw [hin, parseJ.eq_def]
          have hsz2 : sizeOf (x :: xs) ≤ fuel := by
            have := Json.arr.sizeOf_spec (x :: xs)
            omega
          simp only [Char.reduceEq, if_false, ite_false, if_true, ite_true, reduceIte,
            if_neg hc]
          rw [← ht, ihE (x :: xs) rest (by simp) hsz2]
          rfl
      | obj fs =>
        cases fs with
        | nil =>
          rw [show stringifyChars (.obj []) ++ rest =
              Char.ofNat 123 :: Char.ofNat 125 :: rest by
            simp [stringifyChars, stringifyFields]]
          rw [parseJ.eq_def]
          simp
        | cons f fs =>
          obtain ⟨t0, ht0⟩ := stringifyFields_cons_head f fs
          have ht : stringifyFields (f :: fs) ++ Char.ofNat 125 :: rest =
              '"' :: (t0 ++ Char.ofNat 125 :: rest) := by
            rw [ht0, List.cons_append]
          have hin : stringifyChars (.obj (f :: fs)) ++ rest =
              Char.ofNat 123 :: ('"' :: (t0 ++ Char.ofNat 125 :: rest)) := by
            rw [show stringifyChars (.obj (f :: fs)) =
              Char.ofNat 123 :: (stringifyFields (f :: fs) ++ [Char.ofNat 125]) by
              simp [stringifyChars]]
            rw [List.cons_append, List.append_assoc, List.singleton_append, ht]
          rw [hin, parseJ.eq_def]
          have hsz2 : sizeOf (f :: fs) ≤ fuel := by
            have := Json.obj.sizeOf_spec (f :: fs)
            omega
          simp only [Char.reduceEq, if_false, ite_false, if_true, ite_true, reduceIte]
          rw [← ht, ihF (f :: fs) rest (by simp) hsz2]
          rfl
    · intro xs rest hne hsz
      cases xs with
      | nil => exact absurd rfl hne
      | cons x xs =>
        cases xs with
        | nil =>
          have hszx : sizeOf x ≤ fuel := by
            have hs1 : sizeOf ([x] : List Json) = 2 + sizeOf x := by simp_arith
            omega
          rw [show stringifyList [x] ++ ']' :: rest = stringifyChars x ++ ']' :: rest by
            simp [stringifyList]]
          rw [parseElems]
          rw [ihJ x (']' :: rest) hszx (noLeadDigit_of ']' rest (by decide))]
          rfl
        | cons y ys =>
          have hszx : sizeOf x ≤ fuel := by
            have := List.cons.sizeOf_spec x (y :: ys)
            have := one_le_sizeOf_list (y :: ys)
            omega
          have hszy : sizeOf (y :: ys) ≤ fuel := by
            have := List.cons.sizeOf_spec x (y :: ys)
            have := one_le_sizeOf_json x
            omega
          rw [show stringifyList (x :: y :: ys) ++ ']' :: rest =
              stringifyChars x ++ ',' :: (stringifyList (y :: ys) ++ ']' :: rest) by
            simp [stringifyList]]
          rw [parseElems]
          rw [ihJ x (',' :: (stringifyList (y :: ys) ++ ']' :: rest)) hszx
            (noLeadDigit_of ',' _ (by decide))]
          simp only []
          rw [ihE (y :: ys) rest (by simp) hszy]
          rfl
    · intro fs rest hne hsz
      cases fs with
      | nil => exact absurd rfl hne
      | cons f fs =>
        obtain ⟨k, v⟩ := f
        cases fs with
        | nil =>
          have hszv : sizeOf v ≤ fuel := by
            have := List.cons.sizeOf_spec (k, v) ([] : List (String × Json))
            have := Prod.mk.sizeOf_spec k v
            simp_arith at *
            omega
          rw [show stringifyFields [(k, v)] ++ Char.ofNat 125 :: rest =
              '"' :: (escapeChars k.data ++
                '"' :: (':' :: (stringifyChars v ++ Char.ofNat 125 :: rest))) by
            simp [stringifyFields, quoteStr]]
          rw [parseFields]
          rw [parseStrChars_escape k.data]
          simp only []
          rw [ihJ v (Char.ofNat 125 :: rest) hszv (noLeadDigit_of _ rest (by decide))]
          simp [string_mk_data]
        | cons g gs =>
          have hszv : sizeOf v ≤ fuel := by
            have := List.cons.sizeOf_spec (k, v) (g :: gs)
            have := Prod.mk.sizeOf_spec k v
            have := one_le_sizeOf_list (g :: gs)
            omega
          have hszg : sizeOf (g :: gs) ≤ fuel := by
            have := List.cons.sizeOf_spec (k, v) (g :: gs)
            have := Prod.mk.sizeOf_spec k v
            have := one_le_sizeOf_json v
            omega
          rw [show stringifyFields ((k, v) :: g :: gs) ++ Char.ofNat 125 :: rest =
              '"' :: (escapeChars k.data ++ '"' :: (':' :: (stringifyChars v ++
                ',' :: (stringifyFields (g :: gs) ++ Char.ofNat 125 :: rest)))) by
            simp [stringifyFields, quoteStr]]
          rw [parseFields]
          rw [parseStrChars_escape k.data]
          simp only []
          rw [ihJ v (',' :: (stringifyFields (g :: gs) ++ Char.ofNat 125 :: rest)) hszv
            (noLeadDigit_of ',' _ (by decide))]
          simp only []
          rw [ihF (g :: gs) rest (by simp) hszg]
          simp [string_mk_data]

/-- `JSON.stringify` is injective on JSON documents: two documents with the
same serialization are equal. -/
theorem stringifyChars_injective (a b : Json)
    (h : stringifyChars a = stringifyChars b) : a = b := by
  have ha := (parse_stringify (max (sizeOf a) (sizeOf b))).1 a []
    (Nat.le_max_left _ _) rfl
  have hb := (parse_stringify (max (sizeOf a) (sizeOf b))).1 b []
    (Nat.le_max_right _ _) rfl
  rw [h] at ha
  rw [ha] at hb
  simp only [Option.some.injEq, Prod.mk.injEq] at hb
  exact hb.1

/-! ### The module's data model (`src/types.ts`, `src/config.ts`) -/

/-- The `InstanceStatus` values used by `src/api.ts`. -/
inductive InstanceStatus where
  | Ok
  | Connecting
  | BadConfig
  | ConnectionFailure
  | UnknownError
  | UnknownWarning
deriving Repr, DecidableEq

/-- The module configuration (`ModuleConfig` in `src/config.ts`): host,
username and password are optional text fields. -/
structure ModuleConfig where
  host : Option String
  username : Option String
  password : Option String
  allowUnauthorized : Bool
deriving Repr, DecidableEq

/-- JS truthiness of an optional string field: absent and empty strings
are falsy. -/
def strPresent : Option String → Bool
  | none => false
  | some s => !s.isEmpty

/-- The credential guard `config.host && config.username &&
config.password` (api.ts 54, 264). -/
def configComplete (cfg : ModuleConfig) : Bool :=
  strPresent cfg.host && strPresent cfg.username && strPresent cfg.password

/-- One observable side effect on the host controller: a rebuild or
feedback notification, a status update, or a log line. -/
inductive Notif where
  | updateActions
  | updatePresets
  | updateVariables
  | updateFeedbacks
  | checkFeedbacks (feedbackId : String)
  | status (s : InstanceStatus) (message : Option String)
  | log (level : String) (message : String)
deriving Repr, DecidableEq

/-- A possibly-undefined JS value (`none` is `undefined`). -/
abbrev JsVal := Option Json

mutual

/-- JS `String(value)` coercion, as used for object property keys and
array joining: `null`, booleans and numbers print their literal form,
arrays join their elements with commas (with `null` elements printing as
the empty string), and plain objects print `[object Object]`. -/
def jsToString : Json → List Char
  | .null => nullChars
  | .bool true => trueChars
  | .bool false => falseChars
  | .num n => intChars n
  | .str s => s.data
  | .arr xs => jsArrJoin xs
  | .obj _ => "[object Object]".data

def jsArrJoin : List Json → List Char
  | [] => []
  | [x] => (match x with | .null => [] | _ => jsToString x)
  | x :: y :: xs =>
    (match x with | .null => [] | _ => jsToString x) ++ ',' :: jsArrJoin (y :: xs)

end

/-- JS property-key coercion `obj[key]` applies `String(...)` to the key;
`undefined` coerces to the key `"undefined"`. -/
def jsKeyString : JsVal → String
  | none => "undefined"
  | some j => String.mk (jsToString j)

/-- JS property access `value.field`: throws a `TypeError` on `null`
(modelled as `Except.error`), yields the field on objects (last duplicate
wins, as after `JSON.parse`), and `undefined` on all other values. -/
def jsGetField : Json → String → Except Unit (Option Json)
  | .null, _ => .error ()
  | .obj fs, k => .ok (fs.foldl (fun acc p => if p.1 = k then some p.2 else acc) none)
  | _, _ => .ok none

/-- JS truthiness of a JSON value: `null`, `false`, `0` and the empty
string are falsy; arrays and objects are always truthy. -/
def jsTruthy : Json → Bool
  | .null => false
  | .bool b => b
  | .num n => decide (n ≠ 0)
  | .str s => !s.isEmpty
  | .arr _ => true
  | .obj _ => true

/-- JS `Set` insertion: append if not already present.  (`Set` uses
SameValueZero equality; the salvo ids handled by this module are
primitives, for which it coincides with structural equality.) -/
def setInsert (s : List JsVal) (x : JsVal) : List JsVal :=
  if x ∈ s then s else s ++ [x]

/-- JS `new Set(xs)`: first-occurrence deduplication in insertion
order. -/
def setOfList (xs : List JsVal) : List JsVal :=
  xs.foldl setInsert []

/-! ### The diff helpers of `ConductIPAPI` (`src/api.ts`) -/

/-- `areRoomsEqual` (api.ts 223-228): a length check, then comparison of
the `JSON.stringify` serializations of the two room arrays. -/
def areRoomsEqual (rooms1 rooms2 : List Json) : Bool :=
  if rooms1.length ≠ rooms2.length then false
  else jsonStringify (.arr rooms1) == jsonStringify (.arr rooms2)

/-- Sorted insertion of a string key. -/
def insertSorted (x : String) : List String → List String
  | [] => [x]
  | y :: ys => if x ≤ y then x :: y :: ys else y :: insertSorted x ys

/-- `Array.prototype.sort` on string keys, modelled by insertion sort
(both produce the lexicographically sorted rearrangement). -/
def sortStrings (xs : List String) : List String := xs.foldr insertSorted []

/-- Panel-salvos index lookup `m[k]` (keys are unique; absent keys never
occur in the loop of `arePanelSalvosEqual`). -/
def lookupSalvos (m : List (String × List Json)) (k : String) : List Json :=
  (m.foldl (fun acc p => if p.1 = k then some p.2 else acc) none).getD []

/-- `arePanelSalvosEqual` (api.ts 230-249): compares the sorted key lists
of the two indices and, key by key, the `JSON.stringify` of the two salvo
arrays. -/
def arePanelSalvosEqual (m1 m2 : List (String × List Json)) : Bool :=
  let keys1 := sortStrings (m1.map Prod.fst)
  let keys2 := sortStrings (m2.map Prod.fst)
  if keys1.length ≠ keys2.length then false
  else (keys1.zip keys2).all fun p =>
    p.1 == p.2 && (jsonStringify (.arr (lookupSalvos m1 p.1)) ==
      jsonStringify (.arr (lookupSalvos m2 p.2)))

/-- `areActiveSalvosEqual` (api.ts 251-261): a size check, then membership
of every element of the first set in the second. -/
def areActiveSalvosEqual (active1 active2 : List JsVal) : Bool :=
  if active1.length ≠ active2.length then false
  else active1.all (fun id => decide (id ∈ active2))

/-- JS object assignment `m[k] = v`: replaces the value in place when the
key exists, appends the pair otherwise. -/
def objSet (m : List (String × List Json)) (k : String) (v : List Json) :
    List (String × List Json) :=
  if m.any (fun p => decide (p.1 = k)) then
    m.map (fun p => if p.1 = k then (k, v) else p)
  else m ++ [(k, v)]

/-- One panel of the extraction loop (api.ts 279-287): reads
`panel.salvos` (kept when it is an array — the check
`panel.salvos && Array.isArray(panel.salvos)` is equivalent because
arrays are truthy — and `[]` otherwise) and writes it to the index under
the coerced panel id. -/
def addPanel (acc : List (String × List Json)) (panel : Json) :
    Except Unit (List (String × List Json)) := do
  let salvosF ← jsGetField panel "salvos"
  let idF ← jsGetField panel "id"
  let salvos := match salvosF with
    | some (.arr s) => s
    | _ => []
  .ok (objSet acc (jsKeyString idF) salvos)

/-- One room of the extraction loop (api.ts 277-289): iterates the
`panels` field when it is an array (`room.panels &&
Array.isArray(room.panels)`, and arrays are truthy). -/
def addRoomPanels (acc : List (String × List Json)) (room : Json) :
    Except Unit (List (String × List Json)) := do
  let panelsF ← jsGetField room "panels"
  match panelsF with
  | some (.arr panels) => panels.foldlM addPanel acc
  | _ => .ok acc

/-- The panel-id → salvo-list index that `fetchRoomsAndPanels` derives
from a fetched rooms array (api.ts 276-289).  `Except.error` models a
`TypeError` thrown by a property access on a `null` room or panel. -/
def extractPanelSalvos (rooms : List Json) :
    Except Unit (List (String × List Json)) :=
  rooms.foldlM addRoomPanels []

/-- The poller's cached state: the `roomsData`, `panelSalvos` and
`activeSalvos` fields of `ConductIPAPI` (api.ts 12-14).  `activeSalvos`
is a JS `Set`, modelled as its insertion-ordered duplicate-free element
list. -/
structure PollState where
  roomsData : List Json
  panelSalvos : List (String × List Json)
  activeSalvos : List JsVal
deriving Repr, DecidableEq

/-- `Array.from(set).join(', ')`: `undefined` and `null` elements print
as the empty string. -/
def joinIds (ids : List JsVal) : String :=
  String.intercalate ", " (ids.map fun v =>
    match v with
    | none => ""
    | some .null => ""
    | some j => String.mk (jsToString j))

/-- `fetchActiveSalvos` (api.ts 355-377), parametrized by the parsed
result of `GET /salvos/active`.  Returns the new state, the emitted
notifications, and `some changed` — or `none` when evaluating `salvo.id`
threw a `TypeError` (a `null` array element), aborting the function
before the set is replaced or anything is notified.  The source condition
`activeSalvosInfo && Array.isArray(activeSalvosInfo)` is the array case
(arrays are truthy); every other non-`null` value takes the
invalid-format branch. -/
def fetchActiveSalvos (st : PollState) (result : Json) :
    PollState × List Notif × Option Bool :=
  match result with
  | .arr xs =>
    match xs.mapM (fun salvo => jsGetField salvo "id") with
    | .error _ => (st, [], none)
    | .ok ids =>
      let newActive := setOfList ids
      let logs := [Notif.log "debug" ("Fetched active salvos: " ++ joinIds newActive)]
      let changed := !areActiveSalvosEqual st.activeSalvos newActive
      ({ st with activeSalvos := newActive },
        logs ++ (if changed then [Notif.checkFeedbacks "salvo_active"] else []),
        some changed)
  | .null =>
    let logs := [Notif.log "debug"
      "Polling: Failed to fetch active salvos, makeApiRequest returned null."]
    let changed := !areActiveSalvosEqual st.activeSalvos []
    ({ st with activeSalvos := [] },
      logs ++ (if changed then [Notif.checkFeedbacks "salvo_active"] else []),
      some changed)
  | other =>
    let logs := [Notif.log "warn"
      ("Received invalid data format for active salvos. " ++ jsonStringify other)]
    let changed := !areActiveSalvosEqual st.activeSalvos []
    ({ st with activeSalvos := [] },
      logs ++ (if changed then [Notif.checkFeedbacks "salvo_active"] else []),
      some changed)

/-- `fetchRoomsAndPanels` (api.ts 263-327), parametrized by the parsed
results of `GET /rooms/info` and — reached only on the success path — of
`GET /salvos/active`.  Returns the new state and the cycle's notification
trace.  The source condition `roomsInfo && Array.isArray(roomsInfo)` is
the array case (arrays are truthy); `null` takes the transport-failure
branch and every other value the invalid-format branch.  A `TypeError`
thrown while deriving the index (a `null` room or panel) aborts the cycle
before the snapshot is replaced. -/
def fetchRoomsAndPanels (cfg : ModuleConfig) (st : PollState)
    (roomsResult activeResult : Json) : PollState × List Notif :=
  if ¬configComplete cfg then (st, [])
  else
    let debugLog := Notif.log "debug"
      ("Fetched rooms/panels data: " ++ jsonStringify roomsResult)
    match roomsResult with
    | .arr newRoomsData =>
      let okStatus := Notif.status .Ok none
      match extractPanelSalvos newRoomsData with
      | .error _ => (st, [debugLog, okStatus])
      | .ok newPanelSalvos =>
        let roomsChanged := !areRoomsEqual st.roomsData newRoomsData
        let panelSalvosChanged := !arePanelSalvosEqual st.panelSalvos newPanelSalvos
        let st1 := { st with roomsData := newRoomsData, panelSalvos := newPanelSalvos }
        match fetchActiveSalvos st1 activeResult with
        | (st2, activeNotifs, none) => (st2, debugLog :: okStatus :: activeNotifs)
        | (st2, activeNotifs, some activeSalvosChanged) =>
          let rebuild :=
            if roomsChanged || panelSalvosChanged || activeSalvosChanged then
              (if roomsChanged || panelSalvosChanged then
                [Notif.updateActions, Notif.updatePresets, Notif.updateVariables]
              else []) ++
              (if activeSalvosChanged then [Notif.updateFeedbacks] else [])
            else []
          (st2, debugLog :: okStatus :: (activeNotifs ++ rebuild))
    | .null =>
      (st, [debugLog,
        Notif.log "debug"
          "Polling: Failed to fetch rooms/panels, makeApiRequest returned null."])
    | other =>
      (st, [debugLog,
        Notif.log "warn" ("fetchRoomsAndPanels: Received invalid data format. " ++
          "Expected array, got: " ++ jsonStringify other),
        Notif.status .UnknownWarning (some "Invalid data format from API (rooms)")])

/-- The active-salvo set a fetched `/salvos/active` result produces: the
ids of the array elements deduplicated as a JS `Set`, or `none` when the
result is not an array or evaluating `salvo.id` throws. -/
def newActiveSetOf (result : Json) : Option (List JsVal) :=
  match result with
  | .arr xs => ((xs.mapM (fun salvo => jsGetField salvo "id")).toOption).map setOfList
  | _ => none

/-! ### The transport client `makeApiRequest` (`src/api.ts` 53-196) -/

/-- The body of an HTTP response together with its `JSON.parse` status:
empty after trimming, invalid JSON, or valid JSON. -/
inductive BodyContent where
  | empty
  | invalid (raw : String)
  | valid (raw : String) (json : Json)
deriving Repr, DecidableEq

/-- The raw body text (used in log messages). -/
def bodyRaw : BodyContent → String
  | .empty => ""
  | .invalid raw => raw
  | .valid raw _ => raw

/-- The transport-level outcome of one HTTPS request: a response with a
status code, a timeout, or a socket/TLS error (with a Node error code,
empty when absent, and a message). -/
inductive HttpEvent where
  | response (statusCode : Nat) (statusMessage : String) (body : BodyContent)
  | timeout
  | socketError (code : String) (message : String)
deriving Repr, DecidableEq

/-- Is the first list an initial segment of the second? -/
def leadsWith : List Char → List Char → Bool
  | [], _ => true
  | _ :: _, [] => false
  | a :: as, b :: bs => a == b && leadsWith as bs

/-- `String.prototype.includes`: does the needle occur anywhere in the
haystack? -/
def occursIn (needle : List Char) : List Char → Bool
  | [] => leadsWith needle []
  | c :: t => leadsWith needle (c :: t) || occursIn needle t

/-- `String.prototype.toUpperCase` (over the ASCII method names used
here). -/
def strToUpper (s : String) : String := String.mk (s.data.map Char.toUpper)

/-- `String.prototype.startsWith`. -/
def strStartsWith (s p : String) : Bool := leadsWith p.data s.data

/-- The observable outcome of one `makeApiRequest` call: the resolved
value (`Json.null` is the null sentinel), the emitted status updates and
log lines in order, the new `connectionErrorLogged` flag, and whether a
network request was issued at all. -/
structure RequestOutcome where
  result : Json
  trace : List Notif
  connectionErrorLogged : Bool
  networkAttempted : Bool
deriving Repr, DecidableEq

/-- `makeApiRequest` (api.ts 53-196), parametrized by the transport
outcome of the single HTTPS request it issues.  The request body is a
JSON value whose serialization cannot throw, so the `JSON.stringify`
failure branch (api.ts 63-69, reachable only for circular structures) is
not represented.  The `connectionErrorLogged` flag (api.ts 17) is
threaded explicitly: it is reset on any 2xx response (api.ts 110), set by
the timeout and socket-error handlers after logging once (api.ts
158-189), and untouched by non-2xx responses. -/
def makeApiRequest (cfg : ModuleConfig) (errLogged : Bool)
    (method endpoint : String) (ev : HttpEvent) : RequestOutcome :=
  if ¬configComplete cfg then
    { result := .null,
      trace := [.status .BadConfig (some "Configuration is incomplete.")],
      connectionErrorLogged := errLogged,
      networkAttempted := false }
  else
    let upperMethod := strToUpper method
    let host := cfg.host.getD ""
    match ev with
    | .response sc statusMessage body =>
      if 200 ≤ sc ∧ sc < 300 then
        if upperMethod = "POST" ∧ strStartsWith endpoint "/salvos/" ∧ sc = 200 then
          { result := .bool true, trace := [],
            connectionErrorLogged := false, networkAttempted := true }
        else if sc = 204 then
          { result := .bool true, trace := [],
            connectionErrorLogged := false, networkAttempted := true }
        else
          match body with
          | .empty =>
            { result := .null, trace := [],
              connectionErrorLogged := false, networkAttempted := true }
          | .valid _ j =>
            { result := j, trace := [],
              connectionErrorLogged := false, networkAttempted := true }
          | .invalid raw =>
            { result := .null,
              trace := [.log "warn" ("Failed to parse JSON response from " ++
                  endpoint ++ ". Raw: \"" ++ raw ++ "\""),
                .status .UnknownError (some "Failed to parse API response")],
              connectionErrorLogged := false, networkAttempted := true }
      else
        let userFriendlyMessage := "API Error " ++ toString sc
        let warnLog := Notif.log "warn" (userFriendlyMessage ++ " " ++ statusMessage ++
          " for " ++ upperMethod ++ " /api" ++ endpoint ++ ". Body: " ++ bodyRaw body)
        let statusToSet :=
          if sc = 401 ∨ sc = 403 then InstanceStatus.BadConfig
          else InstanceStatus.ConnectionFailure
        let detailedMessage :=
          if sc = 401 ∨ sc = 403 then "Authentication Failed (" ++ toString sc ++ ")"
          else if sc = 404 then "API Endpoint Not Found (" ++ toString sc ++ ")"
          else userFriendlyMessage
        { result := .null,
          trace := [warnLog, .status statusToSet (some detailedMessage)],
          connectionErrorLogged := errLogged,
          networkAttempted := true }
    | .timeout =>
      let logs :=
        if !errLogged then
          [Notif.log "warn" ("Request to " ++ host ++ "/api" ++ endpoint ++
            " timed out after 5000ms")]
        else []
      { result := .null,
        trace := logs ++ [.status .ConnectionFailure (some "Request Timeout")],
        connectionErrorLogged := true,
        networkAttempted := true }
    | .socketError code emsg =>
      let logs :=
        if !errLogged then
          [Notif.log "warn" ("HTTP Request to " ++ host ++ "/api" ++ endpoint ++
            " failed: " ++ emsg)]
        else []
      let userMessage :=
        if code = "ECONNREFUSED" then "Connection refused"
        else if code = "ENOTFOUND" ∨ code = "EAI_AGAIN" then
          "Host not found or DNS lookup failure"
        else if code = "UNABLE_TO_VERIFY_LEAF_SIGNATURE" ∨
            occursIn "certificate".data emsg.toLower.data then
          if !cfg.allowUnauthorized then
            "Certificate validation error. Try \"Allow Unverified Certificates\"."
          else "SSL Certificate error (even with bypass): " ++ emsg
        else "Request failed: " ++ (if code = "" then emsg else code)
      { result := .null,
        trace := logs ++ [.status .ConnectionFailure (some userMessage)],
        connectionErrorLogged := true,
        networkAttempted := true }

/-- A sequence of consecutive `makeApiRequest` calls (one transport event
each), threading the `connectionErrorLogged` flag and concatenating the
emitted traces. -/
def runEvents (cfg : ModuleConfig) (method endpoint : String) :
    Bool → List HttpEvent → Bool × List Notif
  | flag, [] => (flag, [])
  | flag, ev :: evs =>
    let o := makeApiRequest cfg flag method endpoint ev
    let rest := runEvents cfg method endpoint o.connectionErrorLogged evs
    (rest.1, o.trace ++ rest.2)

/-- Transport-level failures: timeouts and socket errors (as opposed to
received HTTP responses). -/
def isTransportFailure : HttpEvent → Bool
  | .timeout => true
  | .socketError _ _ => true
  | .response _ _ _ => false

/-- Is the notification a log line? -/
def isLog : Notif → Bool
  | .log _ _ => true
  | _ => false

/-- Is the notification a status update? -/
def isStatus : Notif → Bool
  | .status _ _ => true
  | _ => false

/-- Rebuild and feedback notifications to the host (as opposed to status
updates and log lines). -/
def isUiNotif : Notif → Bool
  | .updateActions => true
  | .updatePresets => true
  | .updateVariables => true
  | .updateFeedbacks => true
  | .checkFeedbacks _ => true
  | _ => false

/-- Is the value a JSON array? -/
def isArrJson : Json → Bool
  | .arr _ => true
  | _ => false

/-- Is the value a JS primitive (or `undefined`)?  JS `Set` membership
(SameValueZero) coincides with structural equality exactly on these. -/
def jsPrimitive : JsVal → Bool
  | none => true
  | some (.arr _) => false
  | some (.obj _) => false
  | some _ => true

/-! ### Properties of the diff helpers -/

theorem jsonStringify_injective (a b : Json) (h : jsonStringify a = jsonStringify b) :
    a = b := by
  apply stringifyChars_injective
  have h2 : (String.mk (stringifyChars a)).data = (String.mk (stringifyChars b)).data := by
    rw [show String.mk (stringifyChars a) = jsonStringify a from rfl,
      show String.mk (stringifyChars b) = jsonStringify b from rfl, h]
  exact h2

/-- `areRoomsEqual` is exactly structural equality of the two room
arrays. -/
theorem areRoomsEqual_iff (r1 r2 : List Json) :
    areRoomsEqual r1 r2 = true ↔ r1 = r2 := by
  constructor
  · intro h
    rw [areRoomsEqual] at h
    split at h
    · exact absurd h (by simp)
    · have := jsonStringify_injective _ _ (by simpa using h)
      simpa using this
  · rintro rfl
    simp [areRoomsEqual]

theorem areRoomsEqual_refl (r : List Json) : areRoomsEqual r r = true :=
  (areRoomsEqual_iff r r).mpr rfl

theorem zip_self_all {α : Type} (l : List α) (f : α × α → Bool)
    (h : ∀ x ∈ l, f (x, x) = true) : (l.zip l).all f = true := by
  induction l with
  | nil => rfl
  | cons x xs ih =>
    simp only [List.zip_cons_cons, List.all_cons, h x (by simp), Bool.true_and]
    exact ih (fun y hy => h y (by simp [hy]))

theorem arePanelSalvosEqual_refl (m : List (String × List Json)) :
    arePanelSalvosEqual m m = true := by
  rw [arePanelSalvosEqual]
  simp only [ne_eq, not_true_eq_false, if_neg (show ¬¬(sortStrings (m.map Prod.fst)).length =
    (sortStrings (m.map Prod.fst)).length from not_not_intro rfl)]
  exact zip_self_all _ _ (fun k _ => by simp)

theorem areActiveSalvosEqual_refl (a : List JsVal) : areActiveSalvosEqual a a = true := by
  rw [areActiveSalvosEqual]
  simp

/-- `areActiveSalvosEqual a []` holds exactly when `a` is empty. -/
theorem areActiveSalvosEqual_nil (a : List JsVal) :
    areActiveSalvosEqual a [] = true ↔ a = [] := by
  rw [areActiveSalvosEqual]
  cases a <;> simp

theorem mem_foldl_setInsert (xs : List JsVal) :
    ∀ (acc : List JsVal) (x : JsVal), x ∈ xs.foldl setInsert acc ↔ x ∈ acc ∨ x ∈ xs := by
  induction xs with
  | nil =>
    intro acc x
    simp
  | cons y ys ih =>
    intro acc x
    rw [List.foldl_cons, ih]
    constructor
    · rintro (hx | hx)
      · rw [setInsert] at hx
        split at hx
        · exact Or.inl hx
        · rcases List.mem_append.mp hx with h | h
          · exact Or.inl h
          · simp only [List.mem_singleton] at h
            subst h
            exact Or.inr (by simp)
      · exact Or.inr (by simp [hx])
    · rintro (hx | hx)
      · left
        rw [setInsert]
        split
        · exact hx
        · exact List.mem_append.mpr (Or.inl hx)
      · rcases List.mem_cons.mp hx with h | h
        · subst h
          left
          rw [setInsert]
          split
          · assumption
          · simp
        · exact Or.inr h

/-- Membership in a JS `Set` built from a list is membership in the
list. -/
theorem mem_setOfList (xs : List JsVal) (x : JsVal) : x ∈ setOfList xs ↔ x ∈ xs := by
  rw [setOfList, mem_foldl_setInsert]
  simp

theorem nodup_foldl_setInsert (xs : List JsVal) :
    ∀ acc : List JsVal, acc.Nodup → (xs.foldl setInsert acc).Nodup := by
  induction xs with
  | nil =>
    intro acc h
    simpa using h
  | cons y ys ih =>
    intro acc h
    rw [List.foldl_cons]
    apply ih
    rw [setInsert]
    split
    · exact h
    · rename_i hy
      simp [List.nodup_append, h, hy]

/-- A JS `Set` has no duplicate elements. -/
theorem nodup_setOfList (xs : List JsVal) : (setOfList xs).Nodup :=
  nodup_foldl_setInsert xs [] (by simp)

theorem length_eq_of_mem_iff {l1 l2 : List JsVal} (h1 : l1.Nodup) (h2 : l2.Nodup)
    (h : ∀ x, x ∈ l1 ↔ x ∈ l2) : l1.length = l2.length := by
  have e : l1.toFinset = l2.toFinset := by
    apply Finset.ext
    intro a
    simp [List.mem_toFinset, h a]
  calc l1.length = l1.toFinset.card := (List.toFinset_card_of_nodup h1).symm
    _ = l2.toFinset.card := by rw [e]
    _ = l2.length := List.toFinset_card_of_nodup h2

/-- Two JS `Set`s built from lists with the same members compare equal
under `areActiveSalvosEqual`. -/
theorem areActiveSalvosEqual_of_mem_iff (i1 i2 : List JsVal)
    (h : ∀ v, v ∈ i1 ↔ v ∈ i2) :
    areActiveSalvosEqual (setOfList i1) (setOfList i2) = true := by
  have hmem : ∀ v, v ∈ setOfList i1 ↔ v ∈ setOfList i2 := by
    intro v
    rw [mem_setOfList, mem_setOfList]
    exact h v
  have hlen := length_eq_of_mem_iff (nodup_setOfList i1) (nodup_setOfList i2) hmem
  rw [areActiveSalvosEqual, if_neg (not_not_intro hlen)]
  rw [List.all_eq_true]
  intro v hv
  simpa using (hmem v).mp hv

/-- Extracting the `id` fields of the elements of a fetched active-salvo
array succeeds whenever no element is `null`. -/
theorem mapM_getField_ok (xs : List Json) (h : Json.null ∉ xs) :
    ∃ ids, xs.mapM (fun salvo => jsGetField salvo "id") = .ok ids := by
  induction xs with
  | nil => exact ⟨[], rfl⟩
  | cons x t ih =>
    obtain ⟨ids, hids⟩ := ih (fun hx => h (List.mem_cons_of_mem _ hx))
    have hx : x ≠ Json.null := fun he => h (he ▸ List.mem_cons_self _ _)
    have hgf : ∃ v, jsGetField x "id" = .ok v := by
      cases x with
      | null => exact absurd rfl hx
      | bool b => exact ⟨none, rfl⟩
      | num n => exact ⟨none, rfl⟩
      | str s => exact ⟨none, rfl⟩
      | arr l => exact ⟨none, rfl⟩
      | obj fs => exact ⟨_, rfl⟩
    obtain ⟨v, hv⟩ := hgf
    refine ⟨v :: ids, ?_⟩
    rw [List.mapM_cons, hv, hids]
    rfl

/-! ### The claims -/

/-- **C4.**  While any of host, username or password is missing from the
configuration, every call to the transport client resolves immediately to
the null sentinel, reports a configuration-incomplete (`BadConfig`)
status, and issues no network request. -/
theorem claim_C4 (cfg : ModuleConfig) (flag : Bool) (method endpoint : String)
    (ev : HttpEvent) (hc : configComplete cfg = false) :
    (makeApiRequest cfg flag method endpoint ev).result = .null ∧
    (makeApiRequest cfg flag method endpoint ev).networkAttempted = false ∧
    (makeApiRequest cfg flag method endpoint ev).trace =
      [.status .BadConfig (some "Configuration is incomplete.")] := by
  rw [makeApiRequest]
  simp [hc]

theorem claim_C4_witness :
    (makeApiRequest ⟨none, some "u", some "p", false⟩ false "GET" "/rooms/info"
        .timeout).result = .null ∧
    (makeApiRequest ⟨none, some "u", some "p", false⟩ false "GET" "/rooms/info"
        .timeout).networkAttempted = false ∧
    (makeApiRequest ⟨none, some "u", some "p", false⟩ false "GET" "/rooms/info"
        .timeout).trace = [.status .BadConfig (some "Configuration is incomplete.")] :=
  claim_C4 ⟨none, some "u", some "p", false⟩ false "GET" "/rooms/info" .timeout rfl

/-- **C3.**  For a `request()` call of a POST to a path under `/salvos/`:
an HTTP 200 response resolves to boolean `true`; an HTTP 204 response
resolves to `true`; any non-2xx response resolves to the null sentinel
together with a reported status and a message carrying the numeric
code. -/
theorem claim_C3 (cfg : ModuleConfig) (flag : Bool) (method endpoint : String)
    (sc : Nat) (statusMessage : String) (body : BodyContent)
    (hc : configComplete cfg = true)
    (hm : strToUpper method = "POST") (he : strStartsWith endpoint "/salvos/" = true) :
    (sc = 200 ∨ sc = 204 →
      (makeApiRequest cfg flag method endpoint
        (.response sc statusMessage body)).result = .bool true) ∧
    (¬(200 ≤ sc ∧ sc < 300) →
      (makeApiRequest cfg flag method endpoint
        (.response sc statusMessage body)).result = .null ∧
      ∃ w, (makeApiRequest cfg flag method endpoint
          (.response sc statusMessage body)).trace =
        [.log "warn" w,
         .status (if sc = 401 ∨ sc = 403 then .BadConfig else .ConnectionFailure)
           (some (if sc = 401 ∨ sc = 403 then "Authentication Failed (" ++ toString sc ++ ")"
                  else if sc = 404 then "API Endpoint Not Found (" ++ toString sc ++ ")"
                  else "API Error " ++ toString sc))]) := by
  constructor
  · rintro (rfl | rfl)
    · rw [makeApiRequest, if_neg (by simp [hc])]
      simp [hm, he]
    · rw [makeApiRequest, if_neg (by simp [hc])]
      simp [hm, he]
  · intro hnon
    rw [makeApiRequest, if_neg (by simp [hc])]
    simp only []
    rw [if_neg hnon]
    exact ⟨rfl, _, rfl⟩

theorem claim_C3_witness :
    ((200 : Nat) = 200 ∨ (200 : Nat) = 204) ∧
    (makeApiRequest ⟨some "h", some "u", some "p", false⟩ false "POST" "/salvos/7"
      (.response 200 "OK" .empty)).result = .bool true ∧
    (makeApiRequest ⟨some "h", some "u", some "p", false⟩ false "POST" "/salvos/7"
      (.response 500 "ISE" .empty)).result = .null := by
  refine ⟨Or.inl rfl, ?_, ?_⟩
  · exact (claim_C3 ⟨some "h", some "u", some "p", false⟩ false "POST" "/salvos/7" 200
      "OK" .empty rfl (by decide) (by decide)).1 (Or.inl rfl)
  · exact ((claim_C3 ⟨some "h", some "u", some "p", false⟩ false "POST" "/salvos/7" 500
      "ISE" .empty rfl (by decide) (by decide)).2 (by omega)).1

/-- **C8.**  Every non-2xx response is classified as an API error: 401
and 403 report an authentication failure, 404 reports
endpoint-not-found, every other code reports generically with the
numeric code in the message; in all cases the call resolves to the null
sentinel. -/
theorem claim_C8 (cfg : ModuleConfig) (flag : Bool) (method endpoint : String)
    (sc : Nat) (statusMessage : String) (body : BodyContent)
    (hc : configComplete cfg = true) (hnon : ¬(200 ≤ sc ∧ sc < 300)) :
    (makeApiRequest cfg flag method endpoint
      (.response sc statusMessage body)).result = .null ∧
    ∃ w, (makeApiRequest cfg flag method endpoint
        (.response sc statusMessage body)).trace =
      [.log "warn" w,
       .status (if sc = 401 ∨ sc = 403 then .BadConfig else .ConnectionFailure)
         (some (if sc = 401 ∨ sc = 403 then "Authentication Failed (" ++ toString sc ++ ")"
                else if sc = 404 then "API Endpoint Not Found (" ++ toString sc ++ ")"
                else "API Error " ++ toString sc))] := by
  rw [makeApiRequest, if_neg (by simp [hc])]
  simp only []
  rw [if_neg hnon]
  exact ⟨rfl, _, rfl⟩

theorem claim_C8_witness :
    (makeApiRequest ⟨some "h", some "u", some "p", false⟩ false "GET" "/rooms/info"
      (.response 403 "F" .empty)).result = .null ∧
    ∃ w, (makeApiRequest ⟨some "h", some "u", some "p", false⟩ false "GET" "/rooms/info"
      (.response 403 "F" .empty)).trace =
      [.log "warn" w,
       .status .BadConfig (some ("Authentication Failed (" ++ toString (403 : Nat) ++ ")"))] := by
  have h := claim_C8 ⟨some "h", some "u", some "p", false⟩ false "GET" "/rooms/info" 403
    "F" .empty rfl (by omega)
  refine ⟨h.1, ?_⟩
  obtain ⟨w, hw⟩ := h.2
  refine ⟨w, ?_⟩
  rw [hw]
  norm_num

theorem areActiveSalvosEqual_nil_false (a : List JsVal) :
    (areActiveSalvosEqual a [] = false) ↔ a ≠ [] := by
  rw [← Bool.not_eq_true]
  exact not_congr (areActiveSalvosEqual_nil a)

theorem mem_cf_ite (a : List JsVal) (lvl msg : String) :
    (Notif.checkFeedbacks "salvo_active" ∈
      [Notif.log lvl msg] ++
        (if !areActiveSalvosEqual a [] then [Notif.checkFeedbacks "salvo_active"]
         else [])) ↔ a ≠ [] := by
  constructor
  · intro h
    rcases List.mem_append.mp h with h | h
    · simp at h
    · split at h
      · rename_i hch
        exact (areActiveSalvosEqual_nil_false a).mp (by simpa using hch)
      · simp at h
  · intro h
    apply List.mem_append.mpr
    right
    rw [if_pos (by simpa using (areActiveSalvosEqual_nil_false a).mpr h)]
    simp

/-- **C2.**  When an active-salvo fetch fails (the transport returned the
null sentinel) or yields a non-array shape, the cached active-salvo set
becomes empty, and the feedback-recheck notification
`checkFeedbacks('salvo_active')` fires if and only if the set was
non-empty before the failure. -/
theorem claim_C2 (st : PollState) (result : Json) (hfail : isArrJson result = false) :
    (fetchActiveSalvos st result).1.activeSalvos = [] ∧
    (Notif.checkFeedbacks "salvo_active" ∈ (fetchActiveSalvos st result).2.1 ↔
      st.activeSalvos ≠ []) := by
  cases result with
  | arr xs => exact absurd hfail (by simp [isArrJson])
  | null => exact ⟨rfl, mem_cf_ite st.activeSalvos "debug" _⟩
  | bool b => exact ⟨rfl, mem_cf_ite st.activeSalvos "warn" _⟩
  | num n => exact ⟨rfl, mem_cf_ite st.activeSalvos "warn" _⟩
  | str s => exact ⟨rfl, mem_cf_ite st.activeSalvos "warn" _⟩
  | obj fs => exact ⟨rfl, mem_cf_ite st.activeSalvos "warn" _⟩

theorem claim_C2_witness :
    isArrJson Json.null = false ∧
    (fetchActiveSalvos ⟨[], [], [some (Json.str "x")]⟩ Json.null).1.activeSalvos = [] ∧
    (Notif.checkFeedbacks "salvo_active" ∈
      (fetchActiveSalvos ⟨[], [], [some (Json.str "x")]⟩ Json.null).2.1 ↔
      PollState.activeSalvos ⟨[], [], [some (Json.str "x")]⟩ ≠ []) :=
  ⟨rfl, (claim_C2 ⟨[], [], [some (Json.str "x")]⟩ Json.null rfl).1,
    (claim_C2 ⟨[], [], [some (Json.str "x")]⟩ Json.null rfl).2⟩

/-- On a transport-level failure with the configuration complete, the
flag ends `true`, exactly one log line is emitted when the flag was
clear and none when it was already set, and exactly one status update is
emitted. -/
theorem makeApiRequest_failure (cfg : ModuleConfig) (flag : Bool)
    (method endpoint : String) (ev : HttpEvent)
    (hc : configComplete cfg = true) (hev : isTransportFailure ev = true) :
    (makeApiRequest cfg flag method endpoint ev).connectionErrorLogged = true ∧
    ((makeApiRequest cfg flag method endpoint ev).trace.filter isLog).length =
      (if flag then 0 else 1) ∧
    ((makeApiRequest cfg flag method endpoint ev).trace.filter isStatus).length = 1 := by
  cases ev with
  | response sc m b => exact absurd hev (by simp [isTransportFailure])
  | timeout =>
    rw [makeApiRequest, if_neg (by simp [hc])]
    cases flag <;> simp [isLog, isStatus]
  | socketError code emsg =>
    rw [makeApiRequest, if_neg (by simp [hc])]
    cases flag <;> simp [isLog, isStatus]

/-- Once the flag is set, a run of transport failures emits no log lines
at all, but still one status update per failure. -/
theorem runEvents_flagTrue (cfg : ModuleConfig) (method endpoint : String)
    (hc : configComplete cfg = true) :
    ∀ evs : List HttpEvent, (∀ e ∈ evs, isTransportFailure e = true) →
    (runEvents cfg method endpoint true evs).1 = true ∧
    ((runEvents cfg method endpoint true evs).2.filter isLog).length = 0 ∧
    ((runEvents cfg method endpoint true evs).2.filter isStatus).length = evs.length := by
  intro evs
  induction evs with
  | nil => exact fun _ => ⟨rfl, rfl, rfl⟩
  | cons ev evs ih =>
    intro hall
    obtain ⟨hf, hl, hs⟩ :=
      makeApiRequest_failure cfg true method endpoint ev hc (hall ev (by simp))
    obtain ⟨ihf, ihl, ihs⟩ := ih (fun e he => hall e (by simp [he]))
    rw [runEvents]
    simp only [hf]
    refine ⟨ihf, ?_, ?_⟩
    · have hl0 : ((makeApiRequest cfg true method endpoint ev).trace.filter isLog).length
          = 0 := by simpa using hl
      simp only [List.filter_append, List.length_append, ihl, hl0]
    · simp only [List.filter_append, List.length_append, ihs, hs, List.length_cons]
      omega

/-- **C9.**  Between the first transport-level failure and the next
successful 2xx response, the transport-failure log message is emitted at
most once no matter how many further failures occur, while a status
update is still issued on every failure; and any 2xx response clears the
flag so that the next failure logs again. -/
theorem claim_C9 (cfg : ModuleConfig) (method endpoint : String) (evs : List HttpEvent)
    (hc : configComplete cfg = true)
    (hall : ∀ e ∈ evs, isTransportFailure e = true) :
    ((runEvents cfg method endpoint false evs).2.filter isLog).length ≤ 1 ∧
    ((runEvents cfg method endpoint false evs).2.filter isStatus).length = evs.length ∧
    (∀ (flag : Bool) (sc : Nat) (m : String) (b : BodyContent), 200 ≤ sc → sc < 300 →
      (makeApiRequest cfg flag method endpoint
        (.response sc m b)).connectionErrorLogged = false) := by
  have reset : ∀ (flag : Bool) (sc : Nat) (m : String) (b : BodyContent),
      200 ≤ sc → sc < 300 →
      (makeApiRequest cfg flag method endpoint
        (.response sc m b)).connectionErrorLogged = false := by
    intro flag sc m b h200 h300
    rw [makeApiRequest, if_neg (by simp [hc])]
    simp only []
    rw [if_pos ⟨h200, h300⟩]
    by_cases h1 : strToUpper method = "POST" ∧ strStartsWith endpoint "/salvos/" ∧ sc = 200
    · rw [if_pos h1]
    · rw [if_neg h1]
      by_cases h2 : sc = 204
      · rw [if_pos h2]
      · rw [if_neg h2]
        cases b <;> rfl
  cases evs with
  | nil => exact ⟨by simp [runEvents], by simp [runEvents], reset⟩
  | cons ev evs =>
    obtain ⟨hf, hl, hs⟩ :=
      makeApiRequest_failure cfg false method endpoint ev hc (hall ev (by simp))
    obtain ⟨_, h2l, h2s⟩ :=
      runEvents_flagTrue cfg method endpoint hc evs (fun e he => hall e (by simp [he]))
    rw [runEvents]
    simp only [hf]
    refine ⟨?_, ?_, reset⟩
    · have hl1 : ((makeApiRequest cfg false method endpoint ev).trace.filter isLog).length
          = 1 := by simpa using hl
      simp only [List.filter_append, List.length_append, h2l, hl1]
      omega
    · simp only [List.filter_append, List.length_append, h2s, hs, List.length_cons]
      omega

theorem claim_C9_witness :
    ((runEvents ⟨some "h", some "u", some "p", false⟩ "GET" "/rooms/info" false
      [.timeout, .socketError "ECONNREFUSED" "connect ECONNREFUSED",
        .timeout]).2.filter isLog).length ≤ 1 ∧
    ((runEvents ⟨some "h", some "u", some "p", false⟩ "GET" "/rooms/info" false
      [.timeout, .socketError "ECONNREFUSED" "connect ECONNREFUSED",
        .timeout]).2.filter isStatus).length =
      [HttpEvent.timeout, .socketError "ECONNREFUSED" "connect ECONNREFUSED",
        .timeout].length ∧
    (∀ (flag : Bool) (sc : Nat) (m : String) (b : BodyContent), 200 ≤ sc → sc < 300 →
      (makeApiRequest ⟨some "h", some "u", some "p", false⟩ flag "GET" "/rooms/info"
        (.response sc m b)).connectionErrorLogged = false) :=
  claim_C9 ⟨some "h", some "u", some "p", false⟩ "GET" "/rooms/info"
    [.timeout, .socketError "ECONNREFUSED" "connect ECONNREFUSED", .timeout] rfl
    (by intro e he; fin_cases he <;> rfl)

/-- **C7.**  Two consecutive active-salvo fetch results carrying the same
set of salvo ids in different element order are treated as unchanged by
the diff (order-insensitive set equality), and no notification of any
kind fires on the active-set axis: the cycle reports `changed = false`
and emits no rebuild or feedback notification.  (The ids are required to
be primitives; for those, the JS `Set` SameValueZero semantics modelled
here agrees with the runtime.) -/
theorem claim_C7 (st : PollState) (xs ys : List Json) (i1 i2 : List JsVal)
    (_h1 : xs.mapM (fun salvo => jsGetField salvo "id") = .ok i1)
    (h2 : ys.mapM (fun salvo => jsGetField salvo "id") = .ok i2)
    (_hprim : ∀ v ∈ i1, jsPrimitive v = true)
    (hmem : ∀ v, v ∈ i1 ↔ v ∈ i2)
    (hcache : st.activeSalvos = setOfList i1) :
    (fetchActiveSalvos st (.arr ys)).2.2 = some false ∧
    ∀ n ∈ (fetchActiveSalvos st (.arr ys)).2.1, isUiNotif n = false := by
  have heq : areActiveSalvosEqual st.activeSalvos (setOfList i2) = true := by
    rw [hcache]
    exact areActiveSalvosEqual_of_mem_iff i1 i2 hmem
  rw [fetchActiveSalvos, h2]
  simp only [heq, Bool.not_true]
  constructor
  · simp
  · intro n hn
    simp at hn
    subst hn
    rfl

theorem claim_C7_witness :
    ([Json.obj [("id", Json.str "x")], Json.obj [("id", Json.str "y")]].mapM
      (fun salvo => jsGetField salvo "id") =
      .ok [some (Json.str "x"), some (Json.str "y")]) ∧
    ((fetchActiveSalvos
        ⟨[], [], setOfList [some (Json.str "x"), some (Json.str "y")]⟩
        (.arr [Json.obj [("id", Json.str "y")],
          Json.obj [("id", Json.str "x")]])).2.2 = some false ∧
      ∀ n ∈ (fetchActiveSalvos
          ⟨[], [], setOfList [some (Json.str "x"), some (Json.str "y")]⟩
          (.arr [Json.obj [("id", Json.str "y")],
            Json.obj [("id", Json.str "x")]])).2.1, isUiNotif n = false) :=
  ⟨rfl,
    claim_C7 ⟨[], [], setOfList [some (Json.str "x"), some (Json.str "y")]⟩
      [Json.obj [("id", Json.str "x")], Json.obj [("id", Json.str "y")]]
      [Json.obj [("id", Json.str "y")], Json.obj [("id", Json.str "x")]]
      [some (Json.str "x"), some (Json.str "y")]
      [some (Json.str "y"), some (Json.str "x")]
      rfl rfl (by decide)
      (by intro v; constructor <;> (intro h; fin_cases h <;> simp))
      rfl⟩

/-- **C5.**  When the `/rooms/info` fetch fails (null result) or returns
a non-array value, the cached topology snapshot and the panel-salvos
index remain unchanged (indeed the whole state is unchanged, since the
active-salvo fetch is not reached); in the non-array case a data-format
warning status is additionally reported. -/
theorem claim_C5 (cfg : ModuleConfig) (st : PollState) (roomsResult activeResult : Json)
    (hc : configComplete cfg = true) (hfail : isArrJson roomsResult = false) :
    (fetchRoomsAndPanels cfg st roomsResult activeResult).1 = st ∧
    (roomsResult ≠ .null →
      Notif.status .UnknownWarning (some "Invalid data format from API (rooms)") ∈
        (fetchRoomsAndPanels cfg st roomsResult activeResult).2) := by
  cases roomsResult with
  | arr xs => exact absurd hfail (by simp [isArrJson])
  | null =>
    rw [fetchRoomsAndPanels, if_neg (by simp [hc])]
    exact ⟨rfl, fun h => absurd rfl h⟩
  | bool b =>
    rw [fetchRoomsAndPanels, if_neg (by simp [hc])]
    exact ⟨rfl, fun _ => by simp⟩
  | num n =>
    rw [fetchRoomsAndPanels, if_neg (by simp [hc])]
    exact ⟨rfl, fun _ => by simp⟩
  | str s =>
    rw [fetchRoomsAndPanels, if_neg (by simp [hc])]
    exact ⟨rfl, fun _ => by simp⟩
  | obj fs =>
    rw [fetchRoomsAndPanels, if_neg (by simp [hc])]
    exact ⟨rfl, fun _ => by simp⟩

theorem claim_C5_witness :
    isArrJson (Json.str "oops") = false ∧
    (fetchRoomsAndPanels ⟨some "h", some "u", some "p", false⟩
      ⟨[Json.str "room"], [("p", [])], []⟩ (Json.str "oops") Json.null).1 =
      ⟨[Json.str "room"], [("p", [])], []⟩ ∧
    (Json.str "oops" ≠ Json.null →
      Notif.status .UnknownWarning (some "Invalid data format from API (rooms)") ∈
        (fetchRoomsAndPanels ⟨some "h", some "u", some "p", false⟩
          ⟨[Json.str "room"], [("p", [])], []⟩ (Json.str "oops") Json.null).2) :=
  ⟨rfl,
    (claim_C5 ⟨some "h", some "u", some "p", false⟩ ⟨[Json.str "room"], [("p", [])], []⟩
      (Json.str "oops") Json.null rfl rfl).1,
    (claim_C5 ⟨some "h", some "u", some "p", false⟩ ⟨[Json.str "room"], [("p", [])], []⟩
      (Json.str "oops") Json.null rfl rfl).2⟩

/-- An active-salvo fetch whose extracted id set equals the cached one
replaces the state by itself, logs once, and reports no change. -/
theorem fetchActive_unchanged (st : PollState) (ys : List Json) (ids : List JsVal)
    (hids : ys.mapM (fun salvo => jsGetField salvo "id") = .ok ids)
    (hset : setOfList ids = st.activeSalvos) :
    fetchActiveSalvos st (.arr ys) =
      (st, [Notif.log "debug" ("Fetched active salvos: " ++ joinIds (setOfList ids))],
        some false) := by
  have heq : areActiveSalvosEqual st.activeSalvos (setOfList ids) = true := by
    rw [← hset]
    exact areActiveSalvosEqual_refl _
  rw [fetchActiveSalvos, hids]
  simp only [heq, Bool.not_true]
  rw [hset]
  rfl

/-- **C1.**  A polling cycle whose fetched `/rooms/info` topology is
structurally equal to the cached snapshot (so that the derived
panel-salvos index is also unchanged) and whose active-salvo set is
unchanged is observationally silent: the state is unchanged and no
rebuild notification (`updateActions`, `updatePresets`,
`updateVariables`) and no feedback notification (`updateFeedbacks`,
`checkFeedbacks`) fires. -/
theorem claim_C1 (cfg : ModuleConfig) (st : PollState) (activeResult : Json)
    (hc : configComplete cfg = true)
    (hidx : extractPanelSalvos st.roomsData = .ok st.panelSalvos)
    (hact : newActiveSetOf activeResult = some st.activeSalvos) :
    (fetchRoomsAndPanels cfg st (.arr st.roomsData) activeResult).1 = st ∧
    ∀ n ∈ (fetchRoomsAndPanels cfg st (.arr st.roomsData) activeResult).2,
      isUiNotif n = false := by
  obtain ⟨ys, ids, rfl, hids, hset⟩ : ∃ ys ids, activeResult = Json.arr ys ∧
      ys.mapM (fun salvo => jsGetField salvo "id") = .ok ids ∧
      setOfList ids = st.activeSalvos := by
    cases activeResult with
    | arr ys =>
      rw [newActiveSetOf] at hact
      cases hmap : ys.mapM (fun salvo => jsGetField salvo "id") with
      | error e =>
        rw [hmap] at hact
        simp [Except.toOption] at hact
      | ok ids =>
        rw [hmap] at hact
        simp only [Except.toOption, Option.map_some] at hact
        exact ⟨ys, ids, rfl, hmap, by simpa using hact⟩
    | null => simp [newActiveSetOf] at hact
    | bool b => simp [newActiveSetOf] at hact
    | num n => simp [newActiveSetOf] at hact
    | str s => simp [newActiveSetOf] at hact
    | obj fs => simp [newActiveSetOf] at hact
  have hfa := fetchActive_unchanged
    (PollState.mk st.roomsData st.panelSalvos st.activeSalvos) ys ids hids hset
  rw [fetchRoomsAndPanels, if_neg (by simp [hc])]
  simp only []
  rw [hidx]
  simp only [areRoomsEqual_refl, arePanelSalvosEqual_refl, Bool.not_true]
  rw [hfa]
  constructor
  · simp
  · intro n hn
    simp only [Bool.false_eq_true, Bool.or_self, if_false, List.append_nil,
      List.mem_cons, List.mem_singleton, List.not_mem_nil, or_false] at hn
    rcases hn with rfl | rfl | rfl
    · rfl
    · rfl
    · rfl

theorem claim_C1_witness :
    (extractPanelSalvos [Json.obj [("id", Json.str "r"), ("label", Json.str "R"),
        ("panels", Json.arr [Json.obj [("id", Json.str "p"),
          ("salvos", Json.arr [Json.obj [("id", Json.str "s")]])]])]] =
      .ok [("p", [Json.obj [("id", Json.str "s")]])]) ∧
    ((fetchRoomsAndPanels ⟨some "h", some "u", some "p", false⟩
        ⟨[Json.obj [("id", Json.str "r"), ("label", Json.str "R"),
          ("panels", Json.arr [Json.obj [("id", Json.str "p"),
            ("salvos", Json.arr [Json.obj [("id", Json.str "s")]])]])]],
         [("p", [Json.obj [("id", Json.str "s")]])],
         [some (Json.str "s")]⟩
        (.arr [Json.obj [("id", Json.str "r"), ("label", Json.str "R"),
          ("panels", Json.arr [Json.obj [("id", Json.str "p"),
            ("salvos", Json.arr [Json.obj [("id", Json.str "s")]])]])]])
        (.arr [Json.obj [("id", Json.str "s")]])).1 =
      ⟨[Json.obj [("id", Json.str "r"), ("label", Json.str "R"),
          ("panels", Json.arr [Json.obj [("id", Json.str "p"),
            ("salvos", Json.arr [Json.obj [("id", Json.str "s")]])]])]],
         [("p", [Json.obj [("id", Json.str "s")]])],
         [some (Json.str "s")]⟩ ∧
      ∀ n ∈ (fetchRoomsAndPanels ⟨some "h", some "u", some "p", false⟩
        ⟨[Json.obj [("id", Json.str "r"), ("label", Json.str "R"),
          ("panels", Json.arr [Json.obj [("id", Json.str "p"),
            ("salvos", Json.arr [Json.obj [("id", Json.str "s")]])]])]],
         [("p", [Json.obj [("id", Json.str "s")]])],
         [some (Json.str "s")]⟩
        (.arr [Json.obj [("id", Json.str "r"), ("label", Json.str "R"),
          ("panels", Json.arr [Json.obj [("id", Json.str "p"),
            ("salvos", Json.arr [Json.obj [("id", Json.str "s")]])]])]])
        (.arr [Json.obj [("id", Json.str "s")]])).2, isUiNotif n = false) :=
  ⟨rfl,
    claim_C1 ⟨some "h", some "u", some "p", false⟩
      ⟨[Json.obj [("id", Json.str "r"), ("label", Json.str "R"),
          ("panels", Json.arr [Json.obj [("id", Json.str "p"),
            ("salvos", Json.arr [Json.obj [("id", Json.str "s")]])]])]],
         [("p", [Json.obj [("id", Json.str "s")]])],
         [some (Json.str "s")]⟩
      (.arr [Json.obj [("id", Json.str "s")]])
      rfl rfl rfl⟩

/-- When the fetched active-salvo array has no `null` element (and in
every non-array case), `fetchActiveSalvos` completes without throwing. -/
theorem fetchActive_some (st : PollState) (result : Json)
    (hok : ∀ xs, result = .arr xs → Json.null ∉ xs) :
    ∃ r : PollState × List Notif × Bool,
      fetchActiveSalvos st result = (r.1, r.2.1, some r.2.2) := by
  cases result with
  | arr xs =>
    obtain ⟨ids, hids⟩ := mapM_getField_ok xs (hok xs rfl)
    rw [fetchActiveSalvos, hids]
    exact ⟨(_, _, _), rfl⟩
  | null => exact ⟨(_, _, _), rfl⟩
  | bool b => exact ⟨(_, _, _), rfl⟩
  | num n => exact ⟨(_, _, _), rfl⟩
  | str s => exact ⟨(_, _, _), rfl⟩
  | obj fs => exact ⟨(_, _, _), rfl⟩

/-- **C6.**  When two consecutive topology snapshots contain the same
panels in a different order but with identical panel content (the room's
panel list is permuted but not equal), the diff reports them as changed —
the comparison is order-sensitive full deep equality — and the full
rebuild path (`updateActions`, `updatePresets`, `updateVariables`) is
triggered. -/
theorem claim_C6 (cfg : ModuleConfig) (st : PollState)
    (pre post : List Json) (rid rlabel : Json) (ps1 ps2 : List Json)
    (activeResult : Json) (m : List (String × List Json))
    (hc : configComplete cfg = true)
    (_hperm : ps1.Perm ps2) (hne : ps1 ≠ ps2)
    (hcache : st.roomsData =
      pre ++ Json.obj [("id", rid), ("label", rlabel), ("panels", .arr ps1)] :: post)
    (hex : extractPanelSalvos
      (pre ++ Json.obj [("id", rid), ("label", rlabel), ("panels", .arr ps2)] :: post) =
      .ok m)
    (hok : ∀ xs, activeResult = .arr xs → Json.null ∉ xs) :
    areRoomsEqual st.roomsData
      (pre ++ Json.obj [("id", rid), ("label", rlabel), ("panels", .arr ps2)] :: post) =
      false ∧
    Notif.updateActions ∈ (fetchRoomsAndPanels cfg st
      (.arr (pre ++ Json.obj [("id", rid), ("label", rlabel), ("panels", .arr ps2)] :: post))
      activeResult).2 ∧
    Notif.updatePresets ∈ (fetchRoomsAndPanels cfg st
      (.arr (pre ++ Json.obj [("id", rid), ("label", rlabel), ("panels", .arr ps2)] :: post))
      activeResult).2 ∧
    Notif.updateVariables ∈ (fetchRoomsAndPanels cfg st
      (.arr (pre ++ Json.obj [("id", rid), ("label", rlabel), ("panels", .arr ps2)] :: post))
      activeResult).2 := by
  have hneq : st.roomsData ≠
      pre ++ Json.obj [("id", rid), ("label", rlabel), ("panels", .arr ps2)] :: post := by
    rw [hcache]
    intro h
    have h2 := List.append_cancel_left h
    simp only [List.cons.injEq, Json.obj.injEq, Prod.mk.injEq, Json.arr.injEq] at h2
    exact hne h2.1.2.2.1.2
  have hR : areRoomsEqual st.roomsData
      (pre ++ Json.obj [("id", rid), ("label", rlabel), ("panels", .arr ps2)] :: post) =
      false := by
    cases h : areRoomsEqual st.roomsData
      (pre ++ Json.obj [("id", rid), ("label", rlabel), ("panels", .arr ps2)] :: post) with
    | false => rfl
    | true => exact absurd ((areRoomsEqual_iff _ _).mp h) hneq
  refine ⟨hR, ?_⟩
  obtain ⟨r, hfa⟩ := fetchActive_some
    (PollState.mk
      (pre ++ Json.obj [("id", rid), ("label", rlabel), ("panels", .arr ps2)] :: post)
      m st.activeSalvos) activeResult hok
  rw [fetchRoomsAndPanels, if_neg (by simp [hc])]
  simp only []
  rw [hex]
  simp only [hR, Bool.not_false]
  rw [hfa]
  simp only [Bool.true_or, if_pos rfl, List.mem_cons, List.mem_append]
  refine ⟨?_, ?_, ?_⟩ <;> simp

theorem claim_C6_witness :
    ([Json.obj [("id", Json.str "a")], Json.obj [("id", Json.str "b")]].Perm
      [Json.obj [("id", Json.str "b")], Json.obj [("id", Json.str "a")]]) ∧
    (areRoomsEqual
      (PollState.roomsData ⟨[Json.obj [("id", Json.str "r"), ("label", Json.str "R"),
        ("panels", .arr [Json.obj [("id", Json.str "a")],
          Json.obj [("id", Json.str "b")]])]], [], []⟩)
      ([] ++ Json.obj [("id", Json.str "r"), ("label", Json.str "R"),
        ("panels", .arr [Json.obj [("id", Json.str "b")],
          Json.obj [("id", Json.str "a")]])] :: []) = false ∧
    Notif.updateActions ∈ (fetchRoomsAndPanels ⟨some "h", some "u", some "p", false⟩
      ⟨[Json.obj [("id", Json.str "r"), ("label", Json.str "R"),
        ("panels", .arr [Json.obj [("id", Json.str "a")],
          Json.obj [("id", Json.str "b")]])]], [], []⟩
      (.arr ([] ++ Json.obj [("id", Json.str "r"), ("label", Json.str "R"),
        ("panels", .arr [Json.obj [("id", Json.str "b")],
          Json.obj [("id", Json.str "a")]])] :: []))
      Json.null).2 ∧
    Notif.updatePresets ∈ (fetchRoomsAndPanels ⟨some "h", some "u", some "p", false⟩
      ⟨[Json.obj [("id", Json.str "r"), ("label", Json.str "R"),
        ("panels", .arr [Json.obj [("id", Json.str "a")],
          Json.obj [("id", Json.str "b")]])]], [], []⟩
      (.arr ([] ++ Json.obj [("id", Json.str "r"), ("label", Json.str "R"),
        ("panels", .arr [Json.obj [("id", Json.str "b")],
          Json.obj [("id", Json.str "a")]])] :: []))
      Json.null).2 ∧
    Notif.updateVariables ∈ (fetchRoomsAndPanels ⟨some "h", some "u", some "p", false⟩
      ⟨[Json.obj [("id", Json.str "r"), ("label", Json.str "R"),
        ("panels", .arr [Json.obj [("id", Json.str "a")],
          Json.obj [("id", Json.str "b")]])]], [], []⟩
      (.arr ([] ++ Json.obj [("id", Json.str "r"), ("label", Json.str "R"),
        ("panels", .arr [Json.obj [("id", Json.str "b")],
          Json.obj [("id", Json.str "a")]])] :: []))
      Json.null).2) :=
  ⟨List.Perm.swap (Json.obj [("id", Json.str "b")]) (Json.obj [("id", Json.str "a")]) [],
    claim_C6 ⟨some "h", some "u", some "p", false⟩
      ⟨[Json.obj [("id", Json.str "r"), ("label", Json.str "R"),
        ("panels", .arr [Json.obj [("id", Json.str "a")],
          Json.obj [("id", Json.str "b")]])]], [], []⟩
      [] [] (Json.str "r") (Json.str "R")
      [Json.obj [("id", Json.str "a")], Json.obj [("id", Json.str "b")]]
      [Json.obj [("id", Json.str "b")], Json.obj [("id", Json.str "a")]]
      Json.null
      [("b", []), ("a", [])]
      rfl
      (List.Perm.swap (Json.obj [("id", Json.str "b")]) (Json.obj [("id", Json.str "a")]) [])
      (by decide) rfl rfl
      (by intro xs h; simp at h)⟩

/-! ### The shape of the derived panel-salvos index (for C10) -/

/-- The panel list embedded in a room value: the `panels` field when it
is an array, `[]` otherwise.  (Total counterpart of the extraction loop's
view of a room; `null` rooms throw during extraction and never reach a
successful snapshot.) -/
def roomPanels (room : Json) : List Json :=
  match room with
  | .obj fs =>
    match fs.foldl (fun acc p => if p.1 = "panels" then some p.2 else acc) none with
    | some (Json.arr ps) => ps
    | _ => []
  | _ => []

/-- The index key a panel is filed under: its `id` field coerced to a
property key. -/
def panelKeyOf (panel : Json) : String :=
  match panel with
  | .obj fs =>
    jsKeyString (fs.foldl (fun acc p => if p.1 = "id" then some p.2 else acc) none)
  | _ => jsKeyString none

/-- The salvo list recorded for a panel: its `salvos` field when it is an
array, the empty list when the field is absent or not an array. -/
def panelSalvosOf (panel : Json) : List Json :=
  match panel with
  | .obj fs =>
    match fs.foldl (fun acc p => if p.1 = "salvos" then some p.2 else acc) none with
    | some (Json.arr s) => s
    | _ => []
  | _ => []

theorem addPanel_ok (acc : List (String × List Json)) (p : Json) (hp : p ≠ .null) :
    addPanel acc p = .ok (objSet acc (panelKeyOf p) (panelSalvosOf p)) := by
  cases p with
  | null => exact absurd rfl hp
  | bool b => rfl
  | num n => rfl
  | str s => rfl
  | arr l => rfl
  | obj fs =>
    rw [addPanel, panelKeyOf, panelSalvosOf]
    cases hlk : fs.foldl (fun acc p => if p.1 = "salvos" then some p.2 else acc) none with
    | none => simp [jsGetField, hlk, Bind.bind, Except.bind]
    | some j => cases j <;> simp [jsGetField, hlk, Bind.bind, Except.bind]

theorem addRoomPanels_ok (acc : List (String × List Json)) (room : Json)
    (hr : room ≠ .null) :
    addRoomPanels acc room = (roomPanels room).foldlM addPanel acc := by
  cases room with
  | null => exact absurd rfl hr
  | bool b => rfl
  | num n => rfl
  | str s => rfl
  | arr l => rfl
  | obj fs =>
    rw [addRoomPanels, roomPanels]
    cases hlk : fs.foldl (fun acc p => if p.1 = "panels" then some p.2 else acc) none with
    | none => simp [jsGetField, hlk, Bind.bind, Except.bind, pure, Except.pure]
    | some j =>
      cases j <;> simp [jsGetField, hlk, Bind.bind, Except.bind, pure, Except.pure]

theorem objSet_keys_mem (m : List (String × List Json)) (k : String) (v : List Json)
    (k' : String) :
    k' ∈ (objSet m k v).map Prod.fst ↔ k' ∈ m.map Prod.fst ∨ k' = k := by
  rw [objSet]
  split
  · rename_i hany
    have hmaps : (m.map (fun p => if p.1 = k then (k, v) else p)).map Prod.fst =
        m.map Prod.fst := by
      rw [List.map_map]
      apply List.map_congr_left
      intro p _
      by_cases hpk : p.1 = k
      · simp [hpk]
      · simp [hpk]
    rw [hmaps]
    have hk : k ∈ m.map Prod.fst := by
      rw [List.any_eq_true] at hany
      obtain ⟨p, hp, hpk⟩ := hany
      simp only [decide_eq_true_eq] at hpk
      exact List.mem_map.mpr ⟨p, hp, hpk⟩
    constructor
    · exact Or.inl
    · rintro (h | rfl)
      · exact h
      · exact hk
  · simp [List.map_append]

theorem objSet_keys_nodup (m : List (String × List Json)) (k : String) (v : List Json)
    (h : (m.map Prod.fst).Nodup) : ((objSet m k v).map Prod.fst).Nodup := by
  rw [objSet]
  split
  · have hmaps : (m.map (fun p => if p.1 = k then (k, v) else p)).map Prod.fst =
        m.map Prod.fst := by
      rw [List.map_map]
      apply List.map_congr_left
      intro p _
      by_cases hpk : p.1 = k
      · simp [hpk]
      · simp [hpk]
    rw [hmaps]
    exact h
  · rename_i hany
    have hk : k ∉ m.map Prod.fst := by
      intro hmem
      apply hany
      rw [List.any_eq_true]
      obtain ⟨p, hp, hpk⟩ := List.mem_map.mp hmem
      exact ⟨p, hp, by simp [hpk]⟩
    simp [List.map_append, List.nodup_append, h, hk]

theorem objSet_mem (m : List (String × List Json)) (k : String) (v : List Json)
    (k' : String) (v' : List Json) (h : (k', v') ∈ objSet m k v) :
    (k', v') ∈ m ∨ (k' = k ∧ v' = v) := by
  rw [objSet] at h
  split at h
  · obtain ⟨p, hp, hpe⟩ := List.mem_map.mp h
    by_cases hpk : p.1 = k
    · rw [if_pos hpk] at hpe
      right
      exact ⟨(Prod.mk.injEq _ _ _ _ ▸ hpe).1.symm, (Prod.mk.injEq _ _ _ _ ▸ hpe).2.symm⟩
    · rw [if_neg hpk] at hpe
      left
      rw [← hpe]
      exact hp
  · rcases List.mem_append.mp h with h | h
    · exact Or.inl h
    · right
      simp only [List.mem_singleton, Prod.mk.injEq] at h
      exact h

/-- Fold invariant over the panels of one room: keys stay duplicate-free,
the key set grows by exactly the processed panels' keys, and every entry
comes from the accumulator or from some processed panel. -/
theorem foldPanels_spec (ps : List Json) :
    ∀ acc m : List (String × List Json),
    ps.foldlM addPanel acc = .ok m →
    ((acc.map Prod.fst).Nodup → (m.map Prod.fst).Nodup) ∧
    (∀ k, k ∈ m.map Prod.fst ↔ k ∈ acc.map Prod.fst ∨ ∃ p ∈ ps, panelKeyOf p = k) ∧
    (∀ k v, (k, v) ∈ m →
      (k, v) ∈ acc ∨ ∃ p ∈ ps, panelKeyOf p = k ∧ v = panelSalvosOf p) := by
  induction ps with
  | nil =>
    intro acc m h
    simp only [List.foldlM_nil] at h
    obtain rfl : acc = m := by
      injection h
    refine ⟨fun hn => hn, fun k => by simp, fun k v hv => Or.inl hv⟩
  | cons p ps ih =>
    intro acc m h
    rw [List.foldlM_cons] at h
    cases hap : addPanel acc p with
    | error e =>
      rw [hap] at h
      simp [Bind.bind, Except.bind] at h
    | ok acc1 =>
      rw [hap] at h
      have h' : ps.foldlM addPanel acc1 = .ok m := by
        simpa [Bind.bind, Except.bind] using h
      have hp : p ≠ Json.null := by
        intro he
        subst he
        simp [show addPanel acc Json.null = .error () from rfl] at hap
      have hacc1 : acc1 = objSet acc (panelKeyOf p) (panelSalvosOf p) := by
        rw [addPanel_ok acc p hp] at hap
        injection hap with h2
        exact h2.symm
      subst hacc1
      obtain ⟨ihn, ihk, ihv⟩ := ih _ m h'
      refine ⟨fun hn => ihn (objSet_keys_nodup _ _ _ hn), ?_, ?_⟩
      · intro k
        rw [ihk k, objSet_keys_mem]
        constructor
        · rintro ((h | rfl) | ⟨q, hq, hqk⟩)
          · exact Or.inl h
          · exact Or.inr ⟨p, by simp, rfl⟩
          · exact Or.inr ⟨q, by simp [hq], hqk⟩
        · rintro (h | ⟨q, hq, hqk⟩)
          · exact Or.inl (Or.inl h)
          · rcases List.mem_cons.mp hq with rfl | hq2
            · exact Or.inl (Or.inr hqk.symm)
            · exact Or.inr ⟨q, hq2, hqk⟩
      · intro k v hv
        rcases ihv k v hv with h2 | ⟨q, hq, hqk, hqv⟩
        · rcases objSet_mem _ _ _ _ _ h2 with h3 | ⟨rfl, rfl⟩
          · exact Or.inl h3
          · exact Or.inr ⟨p, by simp, rfl, rfl⟩
        · exact Or.inr ⟨q, by simp [hq], hqk, hqv⟩

/-- Fold invariant over all rooms. -/
theorem foldRooms_spec (rooms : List Json) :
    ∀ acc m : List (String × List Json),
    rooms.foldlM addRoomPanels acc = .ok m →
    ((acc.map Prod.fst).Nodup → (m.map Prod.fst).Nodup) ∧
    (∀ k, k ∈ m.map Prod.fst ↔ k ∈ acc.map Prod.fst ∨
      ∃ room ∈ rooms, ∃ p ∈ roomPanels room, panelKeyOf p = k) ∧
    (∀ k v, (k, v) ∈ m → (k, v) ∈ acc ∨
      ∃ room ∈ rooms, ∃ p ∈ roomPanels room, panelKeyOf p = k ∧
        v = panelSalvosOf p) := by
  induction rooms with
  | nil =>
    intro acc m h
    simp only [List.foldlM_nil] at h
    obtain rfl : acc = m := by
      injection h
    refine ⟨fun hn => hn, fun k => by simp, fun k v hv => Or.inl hv⟩
  | cons r rooms ih =>
    intro acc m h
    rw [List.foldlM_cons] at h
    cases har : addRoomPanels acc r with
    | error e =>
      rw [har] at h
      simp [Bind.bind, Except.bind] at h
    | ok acc1 =>
      rw [har] at h
      have h' : rooms.foldlM addRoomPanels acc1 = .ok m := by
        simpa [Bind.bind, Except.bind] using h
      have hr : r ≠ Json.null := by
        intro he
        subst he
        simp [show addRoomPanels acc Json.null = .error () from rfl] at har
      have hpanels : (roomPanels r).foldlM addPanel acc = .ok acc1 := by
        rw [← addRoomPanels_ok acc r hr]
        exact har
      obtain ⟨pn, pk, pv⟩ := foldPanels_spec (roomPanels r) acc acc1 hpanels
      obtain ⟨ihn, ihk, ihv⟩ := ih acc1 m h'
      refine ⟨fun hn => ihn (pn hn), ?_, ?_⟩
      · intro k
        rw [ihk k, pk k]
        constructor
        · rintro ((h | ⟨q, hq, hqk⟩) | ⟨rm, hrm, q, hq, hqk⟩)
          · exact Or.inl h
          · exact Or.inr ⟨r, by simp, q, hq, hqk⟩
          · exact Or.inr ⟨rm, by simp [hrm], q, hq, hqk⟩
        · rintro (h | ⟨rm, hrm, q, hq, hqk⟩)
          · exact Or.inl (Or.inl h)
          · rcases List.mem_cons.mp hrm with rfl | hrm2
            · exact Or.inl (Or.inr ⟨q, hq, hqk⟩)
            · exact Or.inr ⟨rm, hrm2, q, hq, hqk⟩
      · intro k v hv
        rcases ihv k v hv with h2 | ⟨rm, hrm, q, hq, hqk, hqv⟩
        · rcases pv k v h2 with h3 | ⟨q, hq, hqk, hqv⟩
          · exact Or.inl h3
          · exact Or.inr ⟨r, by simp, q, hq, hqk, hqv⟩
        · exact Or.inr ⟨rm, by simp [hrm], q, hq, hqk, hqv⟩

/-- The poller state after `fetchActiveSalvos` keeps the panel-salvos
index untouched. -/
theorem fetchActive_panelSalvos (s : PollState) (r : Json) :
    (fetchActiveSalvos s r).1.panelSalvos = s.panelSalvos := by
  cases r with
  | arr xs =>
    cases h : xs.mapM (fun salvo => jsGetField salvo "id") with
    | error e => rw [fetchActiveSalvos, h]
    | ok ids => rw [fetchActiveSalvos, h]
  | null => rfl
  | bool b => rfl
  | num n => rfl
  | str s => rfl
  | obj fs => rfl

/-- **C10.**  After every successful topology fetch, the panel-salvos
index contains an entry for exactly those panel ids that appear under
some room of the new snapshot (keys are duplicate-free), and every
entry's salvo list is the `salvos` array of a matching panel — the empty
list when that field is absent or not an array. -/
theorem claim_C10 (cfg : ModuleConfig) (st : PollState) (rooms : List Json)
    (activeResult : Json) (m : List (String × List Json))
    (hc : configComplete cfg = true)
    (hex : extractPanelSalvos rooms = .ok m) :
    (fetchRoomsAndPanels cfg st (.arr rooms) activeResult).1.panelSalvos = m ∧
    (m.map Prod.fst).Nodup ∧
    (∀ k, k ∈ m.map Prod.fst ↔
      ∃ room ∈ rooms, ∃ p ∈ roomPanels room, panelKeyOf p = k) ∧
    (∀ k v, (k, v) ∈ m →
      ∃ room ∈ rooms, ∃ p ∈ roomPanels room, panelKeyOf p = k ∧
        v = panelSalvosOf p) := by
  obtain ⟨hn, hk, hv⟩ := foldRooms_spec rooms [] m hex
  refine ⟨?_, hn (by simp), ?_, ?_⟩
  · rw [fetchRoomsAndPanels, if_neg (by simp [hc])]
    simp only []
    rw [hex]
    simp only []
    rcases hfa : fetchActiveSalvos
        (PollState.mk rooms m st.activeSalvos) activeResult with ⟨st2, notifs, oc⟩
    have hps : st2.panelSalvos = m := by
      have h2 := fetchActive_panelSalvos (PollState.mk rooms m st.activeSalvos) activeResult
      rw [hfa] at h2
      exact h2
    cases oc with
    | none => exact hps
    | some ac => exact hps
  · intro k
    rw [hk k]
    simp
  · intro k v hkv
    rcases hv k v hkv with h | h
    · simp at h
    · exact h

theorem claim_C10_witness :
    (extractPanelSalvos [Json.obj [("id", Json.str "r"),
        ("panels", Json.arr [Json.obj [("id", Json.str "p1"),
          ("salvos", Json.arr [Json.obj [("id", Json.str "s1")]])],
          Json.obj [("id", Json.str "p2"), ("salvos", Json.str "bad")]])]] =
      .ok [("p1", [Json.obj [("id", Json.str "s1")]]), ("p2", [])]) ∧
    ((fetchRoomsAndPanels ⟨some "h", some "u", some "p", false⟩ ⟨[], [], []⟩
        (.arr [Json.obj [("id", Json.str "r"),
          ("panels", Json.arr [Json.obj [("id", Json.str "p1"),
            ("salvos", Json.arr [Json.obj [("id", Json.str "s1")]])],
            Json.obj [("id", Json.str "p2"), ("salvos", Json.str "bad")]])]])
        Json.null).1.panelSalvos =
      [("p1", [Json.obj [("id", Json.str "s1")]]), ("p2", [])] ∧
      ([("p1", [Json.obj [("id", Json.str "s1")]]),
        ("p2", ([] : List Json))].map Prod.fst).Nodup ∧
      (∀ k, k ∈ ([("p1", [Json.obj [("id", Json.str "s1")]]),
          ("p2", ([] : List Json))].map Prod.fst) ↔
        ∃ room ∈ [Json.obj [("id", Json.str "r"),
          ("panels", Json.arr [Json.obj [("id", Json.str "p1"),
            ("salvos", Json.arr [Json.obj [("id", Json.str "s1")]])],
            Json.obj [("id", Json.str "p2"), ("salvos", Json.str "bad")]])]],
          ∃ p ∈ roomPanels room, panelKeyOf p = k) ∧
      (∀ k v, (k, v) ∈ [("p1", [Json.obj [("id", Json.str "s1")]]),
          ("p2", ([] : List Json))] →
        ∃ room ∈ [Json.obj [("id", Json.str "r"),
          ("panels", Json.arr [Json.obj [("id", Json.str "p1"),
            ("salvos", Json.arr [Json.obj [("id", Json.str "s1")]])],
            Json.obj [("id", Json.str "p2"), ("salvos", Json.str "bad")]])]],
          ∃ p ∈ roomPanels room, panelKeyOf p = k ∧ v = panelSalvosOf p)) :=
  ⟨rfl,
    claim_C10 ⟨some "h", some "u", some "p", false⟩ ⟨[], [], []⟩
      [Json.obj [("id", Json.str "r"),
        ("panels", Json.arr [Json.obj [("id", Json.str "p1"),
          ("salvos", Json.arr [Json.obj [("id", Json.str "s1")]])],
          Json.obj [("id", Json.str "p2"), ("salvos", Json.str "bad")]])]]
      Json.null
      [("p1", [Json.obj [("id", Json.str "s1")]]), ("p2", [])]
      rfl rfl⟩

end ConductIP
